import Mathlib

/-!
Verification model of the FIC/FIG decoder of pvr.rtlradio
(src/src/dsp_dab_OLD/fib-processor.cpp).

The decoder works on a FIB payload delivered as an unpacked bit buffer
(one entry per bit; see the pointer arithmetic `d = p + processedBytes * 8`
and the direct bit access `fig[offset + 20]` in the source).  We model the
buffer as a `List Nat` whose entries are bits, the mutable `FIBProcessor`
object as an explicit record `FibState`, the `RadioControllerInterface`
callbacks as an appended event list, and the C++ exception thrown by
`handle_ext_label_data_field` as a `Bool` flag threaded next to the state
(mutations performed before the throw are kept, as in C++).

Wall-clock time (`std::chrono` time points) is modelled as a `Nat` counted
in seconds and passed to `processFIB` as an explicit `now` argument.

Declarations from `fib-processor.h`, `MathHelper.h` and `utils/charsets.h`
are not part of the sources; those few pieces (structure fields and their
default values, the UEP protection table, the character-set enum) are
modelled from the specification and marked `Modelled from the spec:`.
-/

namespace FibProc

/-- Modelled from the spec: BitFieldReader (section 4.1).  Extracts `width`
bits MSB-first starting at bit `offset` from the unpacked bit buffer `d`
(out-of-range reads yield 0 in the model; the source treats them as a
caller error).  The getBits helpers of the source are all instances. -/
def getBits (d : List Nat) (offset width : Nat) : Nat :=
  (List.range width).foldl (fun acc i => 2 * acc + d.getD (offset + i) 0 % 2) 0

/-- Modelled from the spec: charsets::CharacterSet values used by the
FIG2 extended-label path (UCS-2 versus UTF-8, undefined before segment 0). -/
inductive CharacterSet where
  | Undefined
  | UnicodeUcs2
  | UnicodeUtf8
  deriving DecidableEq

/-- EEPProtectionProfile of the source (FIG0/1 long form). -/
inductive EEPProtectionProfile where
  | EEP_A
  | EEP_B
  deriving DecidableEq

/-- EEPProtectionLevel of the source (FIG0/1 long form). -/
inductive EEPProtectionLevel where
  | EEP_1
  | EEP_2
  | EEP_3
  | EEP_4
  deriving DecidableEq

/-- Modelled from the spec: the UEP protection table `ProtLevel` lives in a
header that is not part of the sources.  Only its shape (table index to
(size in capacity units, protection level)) matters for the claims; the
numeric entries are irrelevant here and modelled as zero. -/
def ProtLevel (tableIx : Nat) : Nat × Nat :=
  (0, 0)

/-- Protection settings of a subchannel (fields as written by FIG0/1). -/
structure ProtectionSettings where
  shortForm : Bool := true
  uepTableIndex : Nat := 0
  uepLevel : Nat := 0
  eepProfile : EEPProtectionProfile := EEPProtectionProfile.EEP_A
  eepLevel : EEPProtectionLevel := EEPProtectionLevel.EEP_1
  deriving DecidableEq

/-- Subchannel slot.  Modelled from the spec: the defaults (in particular
the sentinel id -1 marking an invalid slot, compared against in
`dropService`) come from the header which is not part of the sources. -/
structure Subchannel where
  subChId : Int := -1
  startAddr : Nat := 0
  length : Nat := 0
  programmeNotData : Nat := 1
  language : Nat := 0
  fecScheme : Nat := 0
  protectionSettings : ProtectionSettings := {}
  deriving DecidableEq

/-- DabLabel: FIG1 short form fields plus the FIG2 extended form segment
store.  `segments` is the map from segment index to raw bytes. -/
structure DabLabel where
  fig1_flag : Nat := 0
  fig1_label : List Nat := []
  charset : Nat := 0
  toggle_flag : Nat := 0
  segment_count : Nat := 0
  segments : List (Nat × List Nat) := []
  extended_label_charset : CharacterSet := CharacterSet.Undefined
  fig2_rfu : Nat := 0
  deriving DecidableEq

/-- Service row, unique by serviceId once confirmed by the debounce filter. -/
structure Service where
  serviceId : Nat
  serviceLabel : DabLabel := {}
  language : Nat := 0
  programType : Nat := 0
  deriving DecidableEq

/-- The Service(SId) constructor of the source. -/
def mkService (sid : Nat) : Service :=
  { serviceId := sid }

/-- ServiceComponent row.  Modelled from the spec: field defaults (notably
`subchannelId = -1` for a packet component before FIG0/3 assigns its
subchannel) come from the header which is not part of the sources. -/
structure ServiceComponent where
  TMid : Nat := 0
  componentNr : Nat := 0
  SId : Nat := 0
  subchannelId : Int := -1
  PS_flag : Nat := 0
  ASCTy : Nat := 0
  DSCTy : Nat := 0
  DGflag : Nat := 0
  packetAddress : Nat := 0
  SCId : Nat := 0
  CAflag : Nat := 0
  componentLabel : DabLabel := {}
  deriving DecidableEq

/-- The dab_date_time record filled by FIG0/9 and FIG0/10. -/
structure DabDateTime where
  year : Int := 0
  month : Int := 0
  day : Int := 0
  hour : Nat := 0
  minutes : Nat := 0
  seconds : Nat := 0
  hourOffset : Int := 0
  minuteOffset : Nat := 0
  deriving DecidableEq

/-- RadioControllerInterface callbacks, modelled as recorded events. -/
inductive Event where
  | newEnsemble (id : Nat)
  | serviceDetected (sid : Nat)
  | setEnsembleLabel (l : DabLabel)
  | setServiceLabel (sid : Nat) (l : DabLabel)
  | dateTimeUpdate (dt : DabDateTime)
  deriving DecidableEq

/-- The mutable state of FIBProcessor.  Time points are Nats (seconds). -/
structure FibState where
  ensembleId : Nat := 0
  ensembleEcc : Nat := 0
  ensembleLabel : DabLabel := {}
  services : List Service := []
  components : List ServiceComponent := []
  subChannels : List Subchannel := []
  serviceRepeatCount : List (Nat × Nat) := []
  dateTime : DabDateTime := {}
  timeOffsetReceived : Bool := false
  timeLastServiceDecrement : Nat := 0
  timeLastFCT0Frame : Nat := 0
  events : List Event := []
  deriving DecidableEq

/-- Replace the element at index `i` (no-op when out of range);
models in-place mutation of one vector slot. -/
def modifyAt (l : List α) (i : Nat) (f : α → α) : List α :=
  match l, i with
  | [], _ => []
  | a :: r, 0 => f a :: r
  | a :: r, n + 1 => a :: modifyAt r n f

/-- Update the first element satisfying `p`; models mutation through the
pointer returned by a linear-scan find. -/
def updateFirst (p : α → Bool) (f : α → α) : List α → List α
  | [] => []
  | a :: r => if p a then f a :: r else a :: updateFirst p f r

/-- std::map lookup with operator[] default 0. -/
def lookupCount (l : List (Nat × Nat)) (sid : Nat) : Nat :=
  match l.find? (fun q => q.1 == sid) with
  | some q => q.2
  | none => 0

/-- std::map operator[] assignment: update the entry or insert it. -/
def setCount (l : List (Nat × Nat)) (sid : Nat) (v : Nat) : List (Nat × Nat) :=
  match l with
  | [] => [(sid, v)]
  | q :: r => if q.1 = sid then (sid, v) :: r else q :: setCount r sid v

/-- findServiceId of the source: first service with the given id. -/
def findServiceId (σ : FibState) (serviceId : Nat) : Option Service :=
  σ.services.find? (fun s => s.serviceId == serviceId)

/-- findComponent of the source. -/
def findComponent (σ : FibState) (serviceId : Nat) (SCIdS : Nat) : Option ServiceComponent :=
  σ.components.find? (fun sc => sc.SId == serviceId && sc.componentNr == SCIdS)

/-- findPacketComponent of the source. -/
def findPacketComponent (σ : FibState) (SCId : Nat) : Option ServiceComponent :=
  σ.components.find? (fun c => c.TMid == 3 && c.SCId == SCId)

/-- dropService of the source: erase the Service with the given id, erase all
its ServiceComponents, then invalidate every still-valid subchannel slot that
is no longer referenced by any remaining component. -/
def dropService (σ : FibState) (SId : Nat) : FibState :=
  let services := σ.services.filter (fun s => s.serviceId != SId)
  let components := σ.components.filter (fun c => c.SId != SId)
  let subChannels := σ.subChannels.map (fun sub =>
    if sub.subChId = -1 then sub
    else if components.any (fun c => c.subchannelId == sub.subChId) then sub
    else { sub with subChId := -1 })
  { σ with services := services, components := components, subChannels := subChannels }

/-- One pass of the service-counter decay loop of HandleFIG0Extension2:
a positive counter is decremented, an entry found at zero triggers
`dropService(it->second)` (the source passes the counter value, not the
serviceId key) and is erased from the map. -/
def decayLoop : List (Nat × Nat) → FibState → List (Nat × Nat) × FibState
  | [], σ => ([], σ)
  | (sid, cnt) :: rest, σ =>
    if 0 < cnt then
      let r := decayLoop rest σ
      ((sid, cnt - 1) :: r.1, r.2)
    else
      decayLoop rest (dropService σ cnt)

/-- The whole decay pass (the body of the once-per-second branch). -/
def decayServiceCounters (σ : FibState) : FibState :=
  let r := decayLoop σ.serviceRepeatCount σ
  { r.2 with serviceRepeatCount := r.1 }

/-- The once-per-second guard around the decay pass in HandleFIG0Extension2. -/
def maybeDecay (σ : FibState) (now : Nat) : FibState :=
  if σ.timeLastServiceDecrement + 1 < now then
    { decayServiceCounters σ with timeLastServiceDecrement := now }
  else σ

/-- The sighting part of HandleFIG0Extension2: saturating increment of the
per-service counter (operator[] inserts a zero entry when absent), then
creation of the Service row and the service-detected notification when the
service is absent and the counter is at least 2. -/
def handleServiceSighting (σ : FibState) (SId : Nat) : FibState :=
  let c0 := lookupCount σ.serviceRepeatCount SId
  let c1 := if c0 < 4 then c0 + 1 else c0
  let σ1 := { σ with serviceRepeatCount := setCount σ.serviceRepeatCount SId c1 }
  if findServiceId σ1 SId = none ∧ 2 ≤ c1 then
    { σ1 with
      services := σ1.services ++ [mkService SId]
      events := σ1.events ++ [Event.serviceDetected SId] }
  else σ1

/-- bindAudioService of the source. -/
def bindAudioService (σ : FibState) (TMid SId compnr subChId ps_flag ASCTy : Nat) : FibState :=
  match findServiceId σ SId with
  | none => σ
  | some s =>
    if σ.components.any (fun sc => sc.SId == s.serviceId && sc.componentNr == compnr) then σ
    else
      { σ with components := σ.components ++
          [{ TMid := TMid, componentNr := compnr, SId := SId
             subchannelId := (subChId : Int), PS_flag := ps_flag, ASCTy := ASCTy }] }

/-- bindDataStreamService of the source. -/
def bindDataStreamService (σ : FibState) (TMid SId compnr subChId ps_flag DSCTy : Nat) : FibState :=
  match findServiceId σ SId with
  | none => σ
  | some s =>
    if σ.components.any (fun sc => sc.SId == s.serviceId && sc.componentNr == compnr) then σ
    else
      { σ with components := σ.components ++
          [{ TMid := TMid, SId := SId, subchannelId := (subChId : Int)
             componentNr := compnr, PS_flag := ps_flag, DSCTy := DSCTy }] }

/-- bindPacketService of the source: note that no subchannel is assigned
here (that happens later through FIG0/3), so the new component keeps the
default subchannelId. -/
def bindPacketService (σ : FibState) (TMid SId compnr SCId ps_flag CAflag : Nat) : FibState :=
  match findServiceId σ SId with
  | none => σ
  | some s =>
    if σ.components.any (fun sc => sc.SId == s.serviceId && sc.componentNr == compnr) then σ
    else
      { σ with components := σ.components ++
          [{ TMid := TMid, SId := SId, componentNr := compnr
             SCId := SCId, PS_flag := ps_flag, CAflag := CAflag }] }

/-- FIG0/0: ensemble id with change notification; the change flags are only
logged by the source.  A frame count lowpart of zero records the wall-clock
time of the FIC frame-count rollover. -/
def FIG0Extension0 (d : List Nat) (now : Nat) (σ : FibState) : FibState :=
  let eId := getBits d 16 16
  let σ :=
    if σ.ensembleId ≠ eId then
      { σ with ensembleId := eId, events := σ.events ++ [Event.newEnsemble eId] }
    else σ
  let lowpart := getBits d 40 8 % 250
  if lowpart = 0 then { σ with timeLastFCT0Frame := now } else σ

/-- HandleFIG0Extension1: one subchannel-organization record (short UEP or
long EEP form); returns the new byte offset. -/
def HandleFIG0Extension1 (d : List Nat) (offset pd : Nat) (σ : FibState) : Nat × FibState :=
  let bitOffset := offset * 8
  let subChId := getBits d bitOffset 6
  let startAdr := getBits d (bitOffset + 6) 10
  let base := fun (sub : Subchannel) =>
    { sub with programmeNotData := pd, subChId := (subChId : Int), startAddr := startAdr }
  if getBits d (bitOffset + 16) 1 = 0 then
    let tableIx := getBits d (bitOffset + 18) 6
    let σ := { σ with subChannels := modifyAt σ.subChannels subChId (fun sub =>
      let sub := base sub
      let ps := { sub.protectionSettings with
        uepTableIndex := tableIx
        shortForm := true
        uepLevel := (ProtLevel tableIx).2 }
      { sub with protectionSettings := ps, length := (ProtLevel tableIx).1 }) }
    ((bitOffset + 24) / 8, σ)
  else
    let opt := getBits d (bitOffset + 17) 3
    let σ := { σ with subChannels := modifyAt σ.subChannels subChId (fun sub =>
      let sub := base sub
      let ps := { sub.protectionSettings with shortForm := false }
      let ps :=
        if opt = 0 then { ps with eepProfile := EEPProtectionProfile.EEP_A }
        else if opt = 1 then { ps with eepProfile := EEPProtectionProfile.EEP_B }
        else ps
      if opt = 0 ∨ opt = 1 then
        let protLevel := getBits d (bitOffset + 20) 2
        let ps :=
          if protLevel = 0 then { ps with eepLevel := EEPProtectionLevel.EEP_1 }
          else if protLevel = 1 then { ps with eepLevel := EEPProtectionLevel.EEP_2 }
          else if protLevel = 2 then { ps with eepLevel := EEPProtectionLevel.EEP_3 }
          else { ps with eepLevel := EEPProtectionLevel.EEP_4 }
        { sub with protectionSettings := ps, length := getBits d (bitOffset + 22) 10 }
      else { sub with protectionSettings := ps }) }
    ((bitOffset + 32) / 8, σ)

/-- The while loop of FIG0Extension1 (fuel bounds the at most 29 rounds of
the source loop, whose offset strictly increases towards Length at most 31). -/
def fig01Loop (d : List Nat) (pd Length : Nat) : Nat → Nat → FibState → FibState
  | 0, _, σ => σ
  | fuel + 1, used, σ =>
    if used < Length - 1 then
      let r := HandleFIG0Extension1 d used pd σ
      fig01Loop d pd Length fuel r.1 r.2
    else σ

/-- FIG0/1: subchannel organization. -/
def FIG0Extension1 (d : List Nat) (σ : FibState) : FibState :=
  fig01Loop d (getBits d 10 1) (getBits d 3 5) 30 2 σ

/-- The component loop of HandleFIG0Extension2: each record is dispatched
on its 2-bit transport mode to the matching bind function. -/
def fig02CompLoop (d : List Nat) (SId : Nat) : Nat → Nat → Nat → FibState → Nat × FibState
  | 0, _, lOffset, σ => (lOffset, σ)
  | cnt + 1, i, lOffset, σ =>
    let TMid := getBits d lOffset 2
    let σ :=
      if TMid = 0 then
        bindAudioService σ TMid SId i (getBits d (lOffset + 8) 6) (getBits d (lOffset + 14) 1)
          (getBits d (lOffset + 2) 6)
      else if TMid = 1 then
        bindDataStreamService σ TMid SId i (getBits d (lOffset + 8) 6)
          (getBits d (lOffset + 14) 1) (getBits d (lOffset + 2) 6)
      else if TMid = 3 then
        bindPacketService σ TMid SId i (getBits d (lOffset + 2) 12) (getBits d (lOffset + 14) 1)
          (getBits d (lOffset + 15) 1)
      else σ
    fig02CompLoop d SId cnt (i + 1) (lOffset + 16) σ

/-- HandleFIG0Extension2: service identifier (short or long form), then the
decay pass when a second has elapsed, then the sighting of the service
through the debounce filter, then the component records. -/
def HandleFIG0Extension2 (d : List Nat) (offset cn pd now : Nat) (σ : FibState) :
    Nat × FibState :=
  let start : Nat × Nat :=
    if pd = 1 then (getBits d (8 * offset) 32, 8 * offset + 32)
    else (getBits d (8 * offset) 16, 8 * offset + 16)
  let SId := start.1
  let lOffset := start.2
  let σ := maybeDecay σ now
  let σ := handleServiceSighting σ SId
  let numberofComponents := getBits d (lOffset + 4) 4
  let r := fig02CompLoop d SId numberofComponents 0 (lOffset + 8) σ
  (r.1 / 8, r.2)

/-- The while loop of FIG0Extension2. -/
def fig02Loop (d : List Nat) (now cn pd Length : Nat) : Nat → Nat → FibState → FibState
  | 0, _, σ => σ
  | fuel + 1, used, σ =>
    if used < Length then
      let r := HandleFIG0Extension2 d used cn pd now σ
      fig02Loop d now cn pd Length fuel r.1 r.2
    else σ

/-- FIG0/2: service organization (debounce filter plus component binding). -/
def FIG0Extension2 (d : List Nat) (now : Nat) (σ : FibState) : FibState :=
  fig02Loop d now (getBits d 8 1) (getBits d 10 1) (getBits d 3 5) 30 2 σ

/-- HandleFIG0Extension3: packet-mode fields for a component previously
created by FIG0/2, looked up by packet-service id; a no-op when unknown. -/
def HandleFIG0Extension3 (d : List Nat) (used : Nat) (σ : FibState) : Nat × FibState :=
  let SCId := getBits d (used * 8) 12
  let DGflag := getBits d (used * 8 + 16) 1
  let DSCTy := getBits d (used * 8 + 18) 6
  let SubChId := getBits d (used * 8 + 24) 6
  let packetAddress := getBits d (used * 8 + 30) 10
  let used := used + 7
  match findPacketComponent σ SCId with
  | none => (used, σ)
  | some _ =>
    let upd := fun (c : ServiceComponent) => { c with
      subchannelId := (SubChId : Int)
      DSCTy := DSCTy
      DGflag := DGflag
      packetAddress := packetAddress }
    (used, { σ with components := updateFirst (fun c => c.TMid == 3 && c.SCId == SCId) upd σ.components })

/-- The while loop of FIG0Extension3. -/
def fig03Loop (d : List Nat) (Length : Nat) : Nat → Nat → FibState → FibState
  | 0, _, σ => σ
  | fuel + 1, used, σ =>
    if used < Length then
      let r := HandleFIG0Extension3 d used σ
      fig03Loop d Length fuel r.1 r.2
    else σ

/-- FIG0/3: additional packet-mode service component description. -/
def FIG0Extension3 (d : List Nat) (σ : FibState) : FibState :=
  fig03Loop d (getBits d 3 5) 30 2 σ

/-- HandleFIG0Extension5: short form assigns a language to a subchannel;
the long form is read but not retained by the source. -/
def HandleFIG0Extension5 (d : List Nat) (offset : Nat) (σ : FibState) : Nat × FibState :=
  let loffset := offset * 8
  if getBits d loffset 1 = 0 then
    let σ :=
      if getBits d (loffset + 1) 1 = 0 then
        let subChId := getBits d (loffset + 2) 6
        let language := getBits d (loffset + 8) 8
        let subs := modifyAt σ.subChannels subChId (fun sub => { sub with language := language })
        { σ with subChannels := subs }
      else σ
    ((loffset + 16) / 8, σ)
  else
    ((loffset + 24) / 8, σ)

/-- The while loop of FIG0Extension5. -/
def fig05Loop (d : List Nat) (Length : Nat) : Nat → Nat → FibState → FibState
  | 0, _, σ => σ
  | fuel + 1, used, σ =>
    if used < Length then
      let r := HandleFIG0Extension5 d used σ
      fig05Loop d Length fuel r.1 r.2
    else σ

/-- FIG0/5: service component language. -/
def FIG0Extension5 (d : List Nat) (σ : FibState) : FibState :=
  fig05Loop d (getBits d 3 5) 30 2 σ

/-- FIG0/9: local time offset (sign bit plus half hours) and ensemble ECC;
marks the time offset as received. -/
def FIG0Extension9 (d : List Nat) (σ : FibState) : FibState :=
  let dt := { σ.dateTime with
    hourOffset := if getBits d 18 1 = 1 then -(getBits d 19 4 : Int) else (getBits d 19 4 : Int)
    minuteOffset := if getBits d 23 1 = 1 then 30 else 0 }
  { σ with dateTime := dt, timeOffsetReceived := true, ensembleEcc := getBits d 24 8 }

/-- The inline Modified-Julian-Date to Gregorian conversion of FIG0Extension10
(JD = MJD + 2400001, then the standard Julian-day-number algorithm with
C++ truncating division). -/
def mjdToYMD (mjd : Int) : Int × Int × Int :=
  let J := mjd + 2400001
  let j := J + 32044
  let g := j.tdiv 146097
  let dg := j.tmod 146097
  let c := (((dg.tdiv 36524) + 1) * 3).tdiv 4
  let dc := dg - c * 36524
  let b := dc.tdiv 1461
  let db := dc.tmod 1461
  let a := (((db.tdiv 365) + 1) * 3).tdiv 4
  let da := db - a * 365
  let y := g * 400 + c * 100 + b * 4 + a
  let m := ((da * 5 + 308).tdiv 153) - 2
  let dd := da - (((m + 4) * 153).tdiv 5) + 122
  (y - 4800 + (m + 2).tdiv 12, ((m + 2).tmod 12) + 1, dd + 1)

/-- FIG0/10: date and time.  The seconds field (bits 48-53) is read only when
the presence flag (bit 36, `fig[offset + 20]` in the source) is set; a change
of the minute value first resets the stored seconds. -/
def FIG0Extension10 (d : List Nat) (σ : FibState) : FibState :=
  let ymd := mjdToYMD (getBits d 17 17 : Int)
  let dt := σ.dateTime
  let dt := { dt with year := ymd.1, month := ymd.2.1, day := ymd.2.2, hour := getBits d 37 5 }
  let dt := if getBits d 42 6 ≠ dt.minutes then { dt with seconds := 0 } else dt
  let dt := { dt with minutes := getBits d 42 6 }
  let dt := if d.getD 36 0 = 1 then { dt with seconds := getBits d 48 6 } else dt
  let σ := { σ with dateTime := dt }
  if σ.timeOffsetReceived then { σ with events := σ.events ++ [Event.dateTimeUpdate σ.dateTime] }
  else σ

/-- The while loop of FIG0Extension14: each record assigns an FEC scheme to
every subchannel slot carrying the record's subchannel id. -/
def fig14Loop (d : List Nat) (length : Nat) : Nat → Nat → FibState → FibState
  | 0, _, σ => σ
  | fuel + 1, used, σ =>
    if used < length then
      let subChId := getBits d (used * 8) 6
      let fecScheme := getBits d (used * 8 + 6) 2
      let σ := { σ with subChannels := σ.subChannels.map (fun sub =>
        if sub.subChId == (subChId : Int) then { sub with fecScheme := fecScheme } else sub) }
      fig14Loop d length fuel (used + 1) σ
    else σ

/-- FIG0/14: forward error correction scheme. -/
def FIG0Extension14 (d : List Nat) (σ : FibState) : FibState :=
  fig14Loop d (getBits d 3 5) 30 2 σ

/-- The while loop of FIG0Extension17: optional language plus programme type
for a service. -/
def fig17Loop (d : List Nat) (length : Nat) : Nat → Nat → FibState → FibState
  | 0, _, σ => σ
  | fuel + 1, offset, σ =>
    if offset < length * 8 then
      let SId := getBits d offset 16
      let L_flag := getBits d (offset + 18) 1
      let CC_flag := getBits d (offset + 19) 1
      let present := (findServiceId σ SId).isSome
      let step1 : Nat × FibState :=
        if L_flag = 1 then
          let language := getBits d (offset + 24) 8
          let svcs := updateFirst (fun s => s.serviceId == SId)
            (fun s => { s with language := language }) σ.services
          (offset + 8, if present then { σ with services := svcs } else σ)
        else (offset, σ)
      let offset := step1.1
      let σ := step1.2
      let ptype := getBits d (offset + 27) 5
      let svcs2 := updateFirst (fun s => s.serviceId == SId)
        (fun s => { s with programType := ptype }) σ.services
      let σ := if present then { σ with services := svcs2 } else σ
      fig17Loop d length fuel (if CC_flag = 1 then offset + 40 else offset + 32) σ
    else σ

/-- FIG0/17: programme type and language. -/
def FIG0Extension17 (d : List Nat) (σ : FibState) : FibState :=
  fig17Loop d (getBits d 3 5) 30 16 σ

/-- process_FIG0: sub-dispatch on the 5-bit extension.  Extensions 4, 6, 7,
8, 11, 12, 13, 15, 16 and 18 to 31 have no effect on the processor state in
the source (diagnostic output or external MOT hand-off only), so they leave
the state unchanged here. -/
def process_FIG0 (d : List Nat) (now : Nat) (σ : FibState) : FibState :=
  let extension := getBits d 11 5
  if extension = 0 then FIG0Extension0 d now σ
  else if extension = 1 then FIG0Extension1 d σ
  else if extension = 2 then FIG0Extension2 d now σ
  else if extension = 3 then FIG0Extension3 d σ
  else if extension = 5 then FIG0Extension5 d σ
  else if extension = 9 then FIG0Extension9 d σ
  else if extension = 10 then FIG0Extension10 d σ
  else if extension = 14 then FIG0Extension14 d σ
  else if extension = 17 then FIG0Extension17 d σ
  else σ

/-- Reads the 16 label bytes of a FIG1 record. -/
def readLabel (d : List Nat) (offset : Nat) : List Nat :=
  (List.range 16).map (fun i => getBits d (offset + 8 * i) 8)

/-- process_FIG1: short-form labels.  Extensions 3 (region) and 6 (X-PAD)
only log in the source; other-ensemble labels are ignored entirely. -/
def process_FIG1 (d : List Nat) (σ : FibState) : FibState :=
  let charSet := getBits d 8 4
  let oe := getBits d 12 1
  let extension := getBits d 13 3
  if oe = 1 then σ
  else if extension = 0 then
    let EId := getBits d 16 16
    let label := readLabel d 32
    if EId = σ.ensembleId then
      let lab := { σ.ensembleLabel with
        fig1_flag := getBits d 160 16
        fig1_label := label
        charset := charSet }
      { σ with ensembleLabel := lab, events := σ.events ++ [Event.setEnsembleLabel lab] }
    else σ
  else if extension = 1 then
    let SId := getBits d 16 16
    match findServiceId σ SId with
    | none => σ
    | some s =>
      let label := readLabel d 32
      let lab := { s.serviceLabel with
        fig1_flag := getBits d 160 16
        fig1_label := label
        charset := charSet }
      let svcs := updateFirst (fun t => t.serviceId == SId)
        (fun t => { t with serviceLabel := lab }) σ.services
      { σ with
        services := svcs
        events := σ.events ++ [Event.setServiceLabel SId lab] }
  else if extension = 4 then
    let pd_flag := getBits d 16 1
    let SCidS := getBits d 20 4
    let idOff : Nat × Nat :=
      if pd_flag = 1 then (getBits d 24 32, 56) else (getBits d 24 16, 40)
    let SId := idOff.1
    let offset := idOff.2
    let label := readLabel d offset
    match findComponent σ SId SCidS with
    | none => σ
    | some c =>
      let lab := { c.componentLabel with
        fig1_flag := getBits d (offset + 128) 16
        charset := charSet
        fig1_label := label }
      let comps := updateFirst (fun t => t.SId == SId && t.componentNr == SCidS)
        (fun t => { t with componentLabel := lab }) σ.components
      { σ with components := comps }
  else if extension = 5 then
    let SId := getBits d 16 32
    match findServiceId σ SId with
    | none => σ
    | some s =>
      let label := readLabel d 48
      let lab := { s.serviceLabel with
        fig1_flag := getBits d 176 16
        fig1_label := label
        charset := charSet }
      let svcs := updateFirst (fun t => t.serviceId == SId)
        (fun t => { t with serviceLabel := lab }) σ.services
      { σ with
        services := svcs
        events := σ.events ++ [Event.setServiceLabel SId lab] }
  else σ

/-- std::map style assignment of one extended-label segment. -/
def setSegment (segs : List (Nat × List Nat)) (i : Nat) (v : List Nat) : List (Nat × List Nat) :=
  match segs with
  | [] => [(i, v)]
  | q :: r => if q.1 = i then (i, v) :: r else q :: setSegment r i v

/-- handle_ext_label_data_field of the source.  The second component models
the std::runtime_error thrown when the declared field length is at most the
header overhead of the taken path (3 bytes when rfu is clear, 1 byte when
set); mutations applied before the throw are kept, exactly as the C++
in-place mutation of the label reference behaves. -/
def handle_ext_label_data_field (f : List Nat) (len_bytes toggle_flag segment_index rfu : Nat)
    (label : DabLabel) : DabLabel × Bool :=
  let label :=
    if label.toggle_flag ≠ toggle_flag then
      { label with
        segments := []
        extended_label_charset := CharacterSet.Undefined
        toggle_flag := toggle_flag }
    else label
  if segment_index = 0 then
    let encoding_flag := f.getD 0 0 / 128 % 2
    let segment_count := f.getD 0 0 / 16 % 8
    let cs := if encoding_flag = 1 then CharacterSet.UnicodeUcs2 else CharacterSet.UnicodeUtf8
    let label := { label with segment_count := segment_count + 1, extended_label_charset := cs }
    if rfu = 0 then
      if len_bytes ≤ 3 then (label, true)
      else
        let label := { label with fig2_rfu := rfu }
        ({ label with segments := setSegment label.segments 0 ((f.drop 3).take (len_bytes - 3)) },
          false)
    else
      if len_bytes ≤ 1 then (label, true)
      else
        let label := { label with fig2_rfu := rfu }
        ({ label with segments := setSegment label.segments 0 ((f.drop 1).take (len_bytes - 1)) },
          false)
  else
    ({ label with segments := setSegment label.segments segment_index (f.take len_bytes) }, false)

/-- process_FIG2: extended (UTF-8 / UCS-2) labels.  The source first converts
the bit buffer into 30 bytes; the flag returned next to the state models the
exception escaping from handle_ext_label_data_field. -/
def process_FIG2 (d : List Nat) (σ : FibState) : FibState × Bool :=
  let B := (List.range 30).map (fun i => getBits d (8 * i) 8)
  let b := fun (i : Nat) => B.getD i 0
  let figlen := b 0 % 32
  let toggle_flag := b 1 / 128 % 2
  let segment_index := b 1 / 16 % 8
  let rfu := b 1 / 8 % 2
  let ext := b 1 % 8
  if ext = 0 then
    let identifier_len := 2
    let eid := b 2 * 256 + b 3
    if figlen ≤ 1 + identifier_len then (σ, false)
    else if eid = σ.ensembleId then
      let r := handle_ext_label_data_field (B.drop (2 + identifier_len))
        (figlen - 1 - identifier_len) toggle_flag segment_index rfu σ.ensembleLabel
      ({ σ with ensembleLabel := r.1 }, r.2)
    else (σ, false)
  else if ext = 1 then
    let identifier_len := 2
    let sid := b 2 * 256 + b 3
    if figlen ≤ 1 + identifier_len then (σ, false)
    else
      match findServiceId σ sid with
      | none => (σ, false)
      | some s =>
        let r := handle_ext_label_data_field (B.drop (2 + identifier_len))
          (figlen - 1 - identifier_len) toggle_flag segment_index rfu s.serviceLabel
        let svcs := updateFirst (fun t => t.serviceId == sid)
          (fun t => { t with serviceLabel := r.1 }) σ.services
        ({ σ with services := svcs }, r.2)
  else if ext = 4 then
    let pd := b 2 / 128 % 2
    let identifier_len := if pd = 0 then 3 else 5
    let SCIdS := b 2 % 16
    let sid :=
      if pd = 0 then b 3 * 256 + b 4
      else b 3 * 16777216 + b 4 * 65536 + b 5 * 256 + b 6
    if figlen ≤ 1 + identifier_len then (σ, false)
    else
      match findComponent σ sid SCIdS with
      | none => (σ, false)
      | some c =>
        let r := handle_ext_label_data_field (B.drop (2 + identifier_len))
          (figlen - 1 - identifier_len) toggle_flag segment_index rfu c.componentLabel
        let comps := updateFirst (fun t => t.SId == sid && t.componentNr == SCIdS)
          (fun t => { t with componentLabel := r.1 }) σ.components
        ({ σ with components := comps }, r.2)
  else if ext = 5 then
    let identifier_len := 4
    let sid := b 2 * 16777216 + b 3 * 65536 + b 4 * 256 + b 5
    if figlen ≤ 1 + identifier_len then (σ, false)
    else
      match findServiceId σ sid with
      | none => (σ, false)
      | some s =>
        let r := handle_ext_label_data_field (B.drop (2 + identifier_len))
          (figlen - 1 - identifier_len) toggle_flag segment_index rfu s.serviceLabel
        let svcs := updateFirst (fun t => t.serviceId == sid)
          (fun t => { t with serviceLabel := r.1 }) σ.services
        ({ σ with services := svcs }, r.2)
  else (σ, false)

/-- process_FIG6: conditional access, not supported, log only. -/
def process_FIG6 (d : List Nat) (σ : FibState) : FibState :=
  σ

/-- process_FIG7: end marker, empty body. -/
def process_FIG7 (d : List Nat) (σ : FibState) : FibState :=
  σ

/-- process_FIGUnsupported: log only. -/
def process_FIGUnsupported (d : List Nat) (σ : FibState) : FibState :=
  σ

/-- The dispatcher loop of processFIB: walk the 30 payload bytes, read each
FIG's 3-bit type, dispatch, then advance by the FIG's declared 5-bit length
plus one byte.  Types 6 and 7 return immediately; the flag in the result
models the label exception escaping to the caller.  The fuel (30 when
entered through `processFIB`) dominates the loop, whose offset strictly
increases by at least one byte per round. -/
def processFIBLoop (p : List Nat) (now : Nat) : Nat → Nat → FibState → FibState × Bool
  | 0, _, σ => (σ, false)
  | fuel + 1, processedBytes, σ =>
    if processedBytes < 30 then
      let d := p.drop (8 * processedBytes)
      let FIGtype := getBits d 0 3
      if FIGtype = 0 then
        processFIBLoop p now fuel (processedBytes + getBits d 3 5 + 1) (process_FIG0 d now σ)
      else if FIGtype = 1 then
        processFIBLoop p now fuel (processedBytes + getBits d 3 5 + 1) (process_FIG1 d σ)
      else if FIGtype = 2 then
        let r := process_FIG2 d σ
        if r.2 then (r.1, true)
        else processFIBLoop p now fuel (processedBytes + getBits d 3 5 + 1) r.1
      else if FIGtype = 6 then (process_FIG6 d σ, false)
      else if FIGtype = 7 then (process_FIG7 d σ, false)
      else
        processFIBLoop p now fuel (processedBytes + getBits d 3 5 + 1)
          (process_FIGUnsupported d σ)
    else (σ, false)

/-- processFIB of the source, on one 30-byte (240-bit) payload. -/
def processFIB (σ : FibState) (p : List Nat) (now : Nat) : FibState × Bool :=
  processFIBLoop p now 30 0 σ

/-- clearEnsemble of the source: clears services, components and the
debounce map, resets both clocks, and calls `subChannels.resize(64)` -
which keeps every existing entry and only appends default (invalid) slots
up to 64. -/
def clearEnsemble (σ : FibState) (now : Nat) : FibState :=
  { σ with
    components := []
    subChannels := σ.subChannels.take 64 ++ List.replicate (64 - σ.subChannels.length) {}
    services := [], serviceRepeatCount := []
    timeLastServiceDecrement := now, timeLastFCT0Frame := now }

/-- The FIBProcessor constructor: clearEnsemble on a fresh object.
Modelled from the spec: the pre-constructor field values (empty collections,
zeroed ids) come from the header which is not part of the sources. -/
def initialState (now : Nat) : FibState :=
  clearEnsemble {} now

/-- getServiceList query. -/
def getServiceList (σ : FibState) : List Service :=
  σ.services

/-- getService query: a sentinel Service(0) when the id is absent. -/
def getService (σ : FibState) (sId : Nat) : Service :=
  match σ.services.find? (fun s => s.serviceId == sId) with
  | some s => s
  | none => mkService 0

/-- getComponents query. -/
def getComponents (σ : FibState) (s : Service) : List ServiceComponent :=
  σ.components.filter (fun c => c.SId == s.serviceId)

/-- getSubchannel query: `subChannels.at(sc.subchannelId)`.  `none` models
the std::out_of_range exception raised by vector::at when the (possibly
negative, hence huge after the size_t conversion) index is not below the
table length. -/
def getSubchannel (σ : FibState) (sc : ServiceComponent) : Option Subchannel :=
  if 0 ≤ sc.subchannelId ∧ sc.subchannelId.toNat < σ.subChannels.length then
    some (σ.subChannels.getD sc.subchannelId.toNat {})
  else none

/-- getEnsembleId query. -/
def getEnsembleId (σ : FibState) : Nat :=
  σ.ensembleId

/-- getEnsembleEcc query. -/
def getEnsembleEcc (σ : FibState) : Nat :=
  σ.ensembleEcc

/-- getEnsembleLabel query. -/
def getEnsembleLabel (σ : FibState) : DabLabel :=
  σ.ensembleLabel

/-- getTimeLastFCT0Frame query. -/
def getTimeLastFCT0Frame (σ : FibState) : Nat :=
  σ.timeLastFCT0Frame

/-! Concrete FIB payloads used by the counterexamples and witnesses.
`bytesToBits` expands packed bytes into the unpacked bit buffer the
decoder works on. -/

/-- Expand packed bytes into one bit per list entry (MSB first). -/
def bytesToBits (bs : List Nat) : List Nat :=
  (bs.map (fun b => [b / 128 % 2, b / 64 % 2, b / 32 % 2, b / 16 % 2,
                     b / 8 % 2, b / 4 % 2, b / 2 % 2, b % 2])).join

/-- A FIB carrying a FIG0/0 (ensemble id 0x1234) followed by a FIG2
ensemble label whose declared length 4 leaves only one data byte - less
than the 3-byte header overhead of the rfu = 0 path. -/
def c3Bits : List Nat :=
  bytesToBits [0x06, 0x00, 0x12, 0x34, 0x00, 0x00, 0x00, 0x44, 0x00, 0x12, 0x34, 0x00]

/-- A FIB carrying FIG0/0 (ensemble id 0x1234), a FIG0/1 record declaring
subchannel 3, and a FIG type 7 end marker. -/
def c4Bits : List Nat :=
  bytesToBits [0x06, 0x00, 0x12, 0x34, 0x00, 0x00, 0x00,
               0x04, 0x01, 0x0C, 0x00, 0x00, 0xFF]

/-- The state after feeding `c4Bits` to a freshly cleared processor. -/
def c4Run : FibState :=
  (processFIB (initialState 0) c4Bits 0).1

/-- A FIB whose first FIG is a short FIG2 (ensemble id 0x0777) and whose
second FIG is a FIG0/0 announcing ensemble id 0xABCD; no FIG of type 6
or 7 occurs before offset 30. -/
def c5Bits : List Nat :=
  bytesToBits [0x44, 0x00, 0x07, 0x77, 0x00, 0x06, 0x00, 0xAB, 0xCD, 0x00, 0x00, 0x00]

/-- Initial state for the c5 run: the ensemble id matches the FIG2 target. -/
def c5State : FibState :=
  { ensembleId := 0x0777 }

/-- A short FIG2 as the only FIG (used by the C3 witness). -/
def w3Bits : List Nat :=
  bytesToBits [0x44, 0x00, 0x12, 0x34, 0x00]

/-- FIG0/10 payload: MJD 58849, no seconds flag, hour 12, minute 0. -/
def c8Bits : List Nat :=
  bytesToBits [0x00, 0x00, 0x39, 0x78, 0x43, 0x00]

/-- FIG0/10 payload: MJD 58849, seconds flag set, hour 5, minute 7,
seconds 33. -/
def w9Bits : List Nat :=
  bytesToBits [0x00, 0x00, 0x39, 0x78, 0x49, 0x47, 0x84]

/-- A tracked service 0x1234 whose debounce counter has decayed to zero. -/
def c1State : FibState :=
  { services := [mkService 0x1234], serviceRepeatCount := [(0x1234, 0)] }

/-! Generic list lemmas used below. -/

/-- getD of a mapped list below the length. -/
theorem getD_map_lt (f : α → β) (l : List α) (i : Nat) (d0 : β) (d1 : α)
    (h : i < l.length) : (l.map f).getD i d0 = f (l.getD i d1) := by
  induction l generalizing i with
  | nil => simp at h
  | cons a r ih =>
    cases i with
    | zero => simp
    | succ n =>
      simp only [List.map_cons, List.getD_cons_succ]
      exact ih n (by simpa using h)

/-- The byte view built by process_FIG2 agrees with getBits. -/
theorem fig2_byte (d : List Nat) (i : Nat) (h : i < 30) :
    ((List.range 30).map (fun j => getBits d (8 * j) 8)).getD i 0 = getBits d (8 * i) 8 := by
  rw [getD_map_lt (fun j => getBits d (8 * j) 8) (List.range 30) i 0 0 (by simpa using h)]
  congr 1
  rw [List.getD_eq_getElem _ _ (by simpa using h)]
  simp

/-- Claim C1: the decay pass of the service debounce filter.  The source
calls `dropService(it->second)` - the counter value, which is zero in that
branch - instead of `dropService(it->first)`, so the decayed service is
removed from tracking but stays in the service collection: after the decay
pass on `c1State` the tracking map is empty while service 0x1234 is still
present (the claim, matching the stated intent of the source comment, says
the tracked service itself is dropped). -/
theorem decay_pass_keeps_decayed_service :
    (decayServiceCounters c1State).serviceRepeatCount = [] ∧
    (decayServiceCounters c1State).services = [mkService 0x1234] ∧
    findServiceId (decayServiceCounters c1State) 0x1234 = some (mkService 0x1234) := by
  refine ⟨by decide, by decide, by decide⟩

/-- Claim C8 (counterexample): MJD 58849 with hour 12 and minute 0 does not
decode to 2020-02-02; the Gregorian conversion of the source yields
2020-01-01. -/
theorem fig0ext10_mjd58849_not_feb2 :
    getBits c8Bits 17 17 = 58849 ∧ getBits c8Bits 37 5 = 12 ∧ getBits c8Bits 42 6 = 0 ∧
    ¬((FIG0Extension10 c8Bits {}).dateTime.month = 2 ∧
      (FIG0Extension10 c8Bits {}).dateTime.day = 2) := by
  refine ⟨by decide, by decide, by decide, by decide⟩

/-- Claim C8 (amended): the FIG0/10 conversion goes through
JD = MJD + 2400001 (`mjdToYMD`); MJD 58849 with hour 12 and minute 0
yields 2020-01-01 12:00, and MJD 51544 yields 2000-01-01. -/
theorem fig0ext10_mjd_reference_dates :
    (FIG0Extension10 c8Bits {}).dateTime.year = 2020 ∧
    (FIG0Extension10 c8Bits {}).dateTime.month = 1 ∧
    (FIG0Extension10 c8Bits {}).dateTime.day = 1 ∧
    (FIG0Extension10 c8Bits {}).dateTime.hour = 12 ∧
    (FIG0Extension10 c8Bits {}).dateTime.minutes = 0 ∧
    getBits c8Bits 17 17 = 58849 ∧
    mjdToYMD 51544 = (2000, 1, 1) := by
  refine ⟨by decide, by decide, by decide, by decide, by decide, by decide, by decide⟩

/-- Claim C9: the stored seconds value is taken from the 6-bit field at
bits 48-53 exactly when the presence flag (bit 36) is set; when the flag is
clear the field plays no role and the seconds are only reset to zero when
the newly decoded minute differs from the stored one. -/
theorem fig0ext10_seconds_presence (d : List Nat) (σ : FibState) :
    (d.getD 36 0 = 1 → (FIG0Extension10 d σ).dateTime.seconds = getBits d 48 6) ∧
    (d.getD 36 0 ≠ 1 → (FIG0Extension10 d σ).dateTime.seconds =
        (if getBits d 42 6 ≠ σ.dateTime.minutes then 0 else σ.dateTime.seconds)) := by
  constructor
  · intro hf
    unfold FIG0Extension10
    by_cases ht : σ.timeOffsetReceived <;>
      by_cases hm : getBits d 42 6 ≠ σ.dateTime.minutes <;>
        simp only [hf, ht, hm, if_pos, if_neg, if_true, if_false, ite_true, ite_false,
          Bool.false_eq_true, not_false_eq_true, not_true_eq_false]
    all_goals rfl
  · intro hf
    unfold FIG0Extension10
    by_cases ht : σ.timeOffsetReceived <;>
      simp only [hf, ht, if_true, if_false, ite_true, ite_false,
        Bool.false_eq_true, not_false_eq_true, not_true_eq_false] <;>
      split <;> rfl

/-- Witness for C9 at a concrete payload with the flag set. -/
theorem fig0ext10_seconds_presence_witness :
    (FIG0Extension10 w9Bits {}).dateTime.seconds = getBits w9Bits 48 6 :=
  (fig0ext10_seconds_presence w9Bits {}).1 (by decide)

/-- Claim C10: whenever a component's stored subchannel id is not a valid
index of the subchannel table (negative sentinel or at least the table
length), getSubchannel reports the out-of-range error (modelled as `none`)
instead of returning a slot copy; and a packet component freshly created by
bindPacketService carries the sentinel subchannel id -1, since FIG0/2 never
assigns packet components a subchannel (FIG0/3 does that later). -/
theorem getSubchannel_invalid_id_raises (σ : FibState) (sc : ServiceComponent)
    (h : ¬(0 ≤ sc.subchannelId ∧ sc.subchannelId.toNat < σ.subChannels.length)) :
    getSubchannel σ sc = none ∧
    (∀ τ TMid SId compnr SCId ps ca s, findServiceId τ SId = some s →
      τ.components.any (fun c => c.SId == s.serviceId && c.componentNr == compnr) = false →
      ∃ c, (bindPacketService τ TMid SId compnr SCId ps ca).components =
          τ.components ++ [c] ∧ c.subchannelId = -1 ∧ c.TMid = TMid ∧ c.SId = SId) := by
  constructor
  · unfold getSubchannel
    simp [h]
  · intro τ TMid SId compnr SCId ps ca s hf hany
    unfold bindPacketService
    rw [hf]
    simp only [hany, Bool.false_eq_true, if_false]
    exact ⟨_, rfl, rfl, rfl, rfl⟩

/-- Witness for C10: a default-constructed packet component (sentinel
subchannel id -1) makes getSubchannel fail even on the full 64-slot table. -/
theorem getSubchannel_invalid_id_raises_witness :
    getSubchannel { subChannels := List.replicate 64 {} } {} = none :=
  (getSubchannel_invalid_id_raises { subChannels := List.replicate 64 {} } {} (by decide)).1

/-- State used by the C6 witness: two services each owning one component,
two valid subchannel slots. -/
def c6State : FibState :=
  { services := [mkService 4, mkService 5]
    components := [{ SId := 4, componentNr := 0, subchannelId := 1 },
                   { SId := 5, componentNr := 0, subchannelId := 2 }]
    subChannels := [{ subChId := 1 }, { subChId := 2 }] }

/-- Claim C6: dropService removes exactly the Service with the given id and
the components with that serviceId foreign key, leaves the table length
unchanged, invalidates exactly the valid slots no longer referenced by any
remaining component (touching only their id field), keeps every slot still
referenced or already invalid, and leaves every other state field unchanged. -/
theorem dropService_cascade (σ : FibState) (SId : Nat) :
    ((dropService σ SId).ensembleId = σ.ensembleId ∧
     (dropService σ SId).ensembleEcc = σ.ensembleEcc ∧
     (dropService σ SId).ensembleLabel = σ.ensembleLabel ∧
     (dropService σ SId).serviceRepeatCount = σ.serviceRepeatCount ∧
     (dropService σ SId).dateTime = σ.dateTime ∧
     (dropService σ SId).timeOffsetReceived = σ.timeOffsetReceived ∧
     (dropService σ SId).timeLastServiceDecrement = σ.timeLastServiceDecrement ∧
     (dropService σ SId).timeLastFCT0Frame = σ.timeLastFCT0Frame ∧
     (dropService σ SId).events = σ.events) ∧
    (∀ s, s ∈ (dropService σ SId).services ↔ s ∈ σ.services ∧ s.serviceId ≠ SId) ∧
    (∀ c, c ∈ (dropService σ SId).components ↔ c ∈ σ.components ∧ c.SId ≠ SId) ∧
    (dropService σ SId).subChannels.length = σ.subChannels.length ∧
    (∀ i, i < σ.subChannels.length →
      ((σ.subChannels.getD i {}).subChId = -1 →
         (dropService σ SId).subChannels.getD i {} = σ.subChannels.getD i {}) ∧
      ((σ.subChannels.getD i {}).subChId ≠ -1 →
        (dropService σ SId).components.any
            (fun c => c.subchannelId == (σ.subChannels.getD i {}).subChId) = true →
         (dropService σ SId).subChannels.getD i {} = σ.subChannels.getD i {}) ∧
      ((σ.subChannels.getD i {}).subChId ≠ -1 →
        (dropService σ SId).components.any
            (fun c => c.subchannelId == (σ.subChannels.getD i {}).subChId) = false →
         (dropService σ SId).subChannels.getD i {} =
           { σ.subChannels.getD i {} with subChId := -1 })) := by
  have hc : (dropService σ SId).components = σ.components.filter (fun c => c.SId != SId) := rfl
  refine ⟨⟨rfl, rfl, rfl, rfl, rfl, rfl, rfl, rfl, rfl⟩, ?_, ?_, ?_, ?_⟩
  · intro s
    simp [dropService, List.mem_filter, bne_iff_ne]
  · intro c
    simp [dropService, List.mem_filter, bne_iff_ne]
  · simp [dropService]
  · intro i hi
    have hm : (dropService σ SId).subChannels.getD i {} =
        (fun sub => if sub.subChId = -1 then sub
          else if (σ.components.filter (fun c => c.SId != SId)).any
              (fun c => c.subchannelId == sub.subChId) = true then sub
          else { sub with subChId := -1 }) (σ.subChannels.getD i {}) := by
      unfold dropService
      exact getD_map_lt _ _ i ({} : Subchannel) ({} : Subchannel) hi
    refine ⟨?_, ?_, ?_⟩
    · intro h1
      rw [hm]
      simp only [if_pos h1]
    · intro h1 h2
      rw [hc] at h2
      rw [hm]
      simp only [if_neg h1, if_pos h2]
    · intro h1 h2
      rw [hc] at h2
      rw [hm]
      simp only [if_neg h1, h2, Bool.false_eq_true, if_false]

/-- Witness for C6: dropping service 5 invalidates slot 1 (subchannel 2,
now orphaned) of `c6State`. -/
theorem dropService_cascade_witness :
    (dropService c6State 5).subChannels.getD 1 {} =
      { (c6State.subChannels.getD 1 {}) with subChId := -1 } :=
  ((dropService_cascade c6State 5).2.2.2.2 1 (by decide)).2.2 (by decide) (by decide)

set_option maxRecDepth 100000 in
/-- Claim C3 (counterexample): feeding `c3Bits` to a freshly cleared
processor lets the FIG2 length exception escape processFIB (the error flag
is set), so the decode call does not always succeed; the first FIG of the
same FIB was processed (ensemble id 0x1234 was stored), showing the abort
happens mid-FIB. -/
theorem processFIB_fig2_exception_escapes :
    (processFIB (initialState 0) c3Bits 0).2 = true ∧
    (processFIB (initialState 0) c3Bits 0).1.ensembleId = 0x1234 := by
  refine ⟨by decide, by decide⟩

set_option maxRecDepth 100000 in
/-- Claim C4 (counterexample): after processing one FIB that declares
subchannel 3 and ensemble 0x1234, a second clearEnsemble keeps slot 3 valid
(subChannels.resize(64) is a no-op on the 64-entry table) and keeps the
ensemble id, so the state store is not fully wiped and not every query
returns empty/default results. -/
theorem clearEnsemble_second_call_keeps_stale_state :
    ((clearEnsemble c4Run 9).subChannels.getD 3 {}).subChId = 3 ∧
    (clearEnsemble c4Run 9).subChannels.length = 64 ∧
    getEnsembleId (clearEnsemble c4Run 9) = 0x1234 := by
  refine ⟨by decide, by decide, by decide⟩

/-- Claim C4 (amended): clearEnsemble empties the service/component
collections and the debounce tracking, resets both decay clocks to the
call time, and keeps the subchannel table at its 64 entries - but it keeps
the existing slot contents (stale valid slots survive), and the ensemble
id, ECC, label and date/time are retained; service/component queries then
return empty results while the first call on a fresh processor does create
64 invalid slots. -/
theorem clearEnsemble_amended (σ : FibState) (now : Nat)
    (h : σ.subChannels.length = 64) :
    (clearEnsemble σ now).services = [] ∧
    (clearEnsemble σ now).components = [] ∧
    (clearEnsemble σ now).serviceRepeatCount = [] ∧
    (clearEnsemble σ now).timeLastServiceDecrement = now ∧
    (clearEnsemble σ now).timeLastFCT0Frame = now ∧
    (clearEnsemble σ now).subChannels = σ.subChannels ∧
    (clearEnsemble σ now).ensembleId = σ.ensembleId ∧
    (clearEnsemble σ now).ensembleEcc = σ.ensembleEcc ∧
    (clearEnsemble σ now).ensembleLabel = σ.ensembleLabel ∧
    (clearEnsemble σ now).dateTime = σ.dateTime ∧
    getServiceList (clearEnsemble σ now) = [] ∧
    (∀ sid, getService (clearEnsemble σ now) sid = mkService 0) ∧
    (∀ s, getComponents (clearEnsemble σ now) s = []) ∧
    (∀ n, (initialState n).subChannels = List.replicate 64 ({} : Subchannel)) := by
  have htk : σ.subChannels.take 64 = σ.subChannels :=
    List.take_of_length_le (le_of_eq h)
  refine ⟨rfl, rfl, rfl, rfl, rfl, ?_, rfl, rfl, rfl, rfl, rfl, ?_, ?_, ?_⟩
  · show σ.subChannels.take 64 ++ List.replicate (64 - σ.subChannels.length) {} = σ.subChannels
    rw [htk, h]
    simp
  · intro sid
    rfl
  · intro s
    rfl
  · intro n
    rfl

set_option maxRecDepth 100000 in
/-- Witness for C4 (amended) at the concrete post-run state `c4Run`. -/
theorem clearEnsemble_amended_witness :
    (clearEnsemble c4Run 9).services = [] ∧
    (clearEnsemble c4Run 9).subChannels = c4Run.subChannels :=
  ⟨(clearEnsemble_amended c4Run 9 (by decide)).1,
   (clearEnsemble_amended c4Run 9 (by decide)).2.2.2.2.2.1⟩

/-- The exception of handle_ext_label_data_field fires exactly on segment 0
when the character field length is at most the header overhead of the taken
path: 3 bytes on the rfu = 0 path, 1 byte on the other. -/
theorem handle_ext_throw_iff (f : List Nat) (len t s r : Nat) (lab : DabLabel) :
    (handle_ext_label_data_field f len t s r lab).2 = true ↔
      s = 0 ∧ ((r = 0 ∧ len ≤ 3) ∨ (¬r = 0 ∧ len ≤ 1)) := by
  unfold handle_ext_label_data_field
  by_cases htog : lab.toggle_flag ≠ t <;>
    by_cases hs : s = 0 <;>
      by_cases hr : r = 0 <;>
        by_cases hl3 : len ≤ 3 <;>
          by_cases hl1 : len ≤ 1 <;>
            simp [htog, hs, hr, hl3, hl1]
  all_goals omega

/-- A FIG2 ensemble label (segment 0, rfu = 0, matching ensemble id) whose
declared length is between 4 and 6 leaves a character field of at most
3 bytes, which makes handle_ext_label_data_field throw. -/
theorem fig2_short_label_aborts (p : List Nat) (σ : FibState)
    (hext : getBits p 8 8 % 8 = 0)
    (hseg : getBits p 8 8 / 16 % 8 = 0)
    (hrfu : getBits p 8 8 / 8 % 2 = 0)
    (heid : getBits p 16 8 * 256 + getBits p 24 8 = σ.ensembleId)
    (hlen1 : 3 < getBits p 0 8 % 32)
    (hlen2 : getBits p 0 8 % 32 ≤ 6) :
    (process_FIG2 p σ).2 = true := by
  unfold process_FIG2
  simp only [fig2_byte p 0 (by omega), fig2_byte p 1 (by omega), fig2_byte p 2 (by omega),
    fig2_byte p 3 (by omega)]
  norm_num
  rw [if_pos hext]
  rw [if_neg (show ¬(getBits p 0 8 % 32 ≤ 1 + 2) from by omega)]
  rw [if_pos heid]
  rw [handle_ext_throw_iff]
  exact ⟨hseg, Or.inl ⟨hrfu, by omega⟩⟩

/-- When the first FIG of a FIB is a FIG2 whose decode throws, the
dispatcher stops right there: the exception escapes processFIB and no
further FIG of that FIB is executed. -/
theorem processFIB_first_fig2_aborts (p : List Nat) (σ : FibState) (now : Nat)
    (htype : getBits p 0 3 = 2)
    (herr : (process_FIG2 p σ).2 = true) :
    processFIB σ p now = ((process_FIG2 p σ).1, true) := by
  show processFIBLoop p now (29 + 1) 0 σ = _
  unfold processFIBLoop
  rw [if_pos (show (0:Nat) < 30 from by omega)]
  simp only [show (8 * 0 : Nat) = 0 from rfl, List.drop_zero]
  rw [if_neg (show ¬(getBits p 0 3 = 0) from by omega)]
  rw [if_neg (show ¬(getBits p 0 3 = 1) from by omega)]
  rw [if_pos htype]
  rw [if_pos herr]

/-- Claim C3 (amended): when a FIG2 label field is declared shorter than
the mandatory header overhead of the taken path (3 bytes on the rfu = 0
path, 1 byte on the other - the second conjunct characterises exactly
these throw conditions), the label update is aborted by an exception that
escapes processFIB: for a FIB starting with such a FIG2, processFIB
returns the error flag and only the first FIG's partial effect, so the
remaining FIGs of that FIB are not processed and the decode call fails
from the caller's perspective. -/
theorem fig2_short_label_error_reaches_caller (p : List Nat) (σ : FibState) (now : Nat)
    (htype : getBits p 0 3 = 2)
    (hext : getBits p 8 8 % 8 = 0)
    (hseg : getBits p 8 8 / 16 % 8 = 0)
    (hrfu : getBits p 8 8 / 8 % 2 = 0)
    (heid : getBits p 16 8 * 256 + getBits p 24 8 = σ.ensembleId)
    (hlen1 : 3 < getBits p 0 8 % 32)
    (hlen2 : getBits p 0 8 % 32 ≤ 6) :
    processFIB σ p now = ((process_FIG2 p σ).1, true) ∧
    (∀ f len t s r lab, (handle_ext_label_data_field f len t s r lab).2 = true ↔
        s = 0 ∧ ((r = 0 ∧ len ≤ 3) ∨ (¬r = 0 ∧ len ≤ 1))) :=
  ⟨processFIB_first_fig2_aborts p σ now htype
      (fig2_short_label_aborts p σ hext hseg hrfu heid hlen1 hlen2),
   fun f len t s r lab => handle_ext_throw_iff f len t s r lab⟩

/-- Witness for C3 (amended) at the concrete short FIG2 payload. -/
theorem fig2_short_label_error_reaches_caller_witness :
    processFIB { ensembleId := 0x1234 } w3Bits 5 =
      ((process_FIG2 w3Bits { ensembleId := 0x1234 }).1, true) :=
  (fig2_short_label_error_reaches_caller w3Bits { ensembleId := 0x1234 } 5 (by decide)
    (by decide) (by decide) (by decide) (by decide) (by decide) (by decide)).1

/-- Advancing the buffer pointer by whole bytes (d = p + processedBytes * 8
in the source) shifts every getBits offset. -/
theorem getBits_drop (p : List Nat) (n off w : Nat) :
    getBits (p.drop n) off w = getBits p (n + off) w := by
  have h : ∀ j, (p.drop n).getD j 0 = p.getD (n + j) 0 := by
    intro j
    simp [List.getD_eq_getElem?_getD, List.getElem?_drop]
  unfold getBits
  have hfun : (fun (acc i : Nat) => 2 * acc + (p.drop n).getD (off + i) 0 % 2)
      = (fun (acc i : Nat) => 2 * acc + p.getD (n + off + i) 0 % 2) := by
    funext acc i
    rw [h (off + i), Nat.add_assoc]
  rw [hfun]

/-- The 3-bit FIG type at byte offset k of the payload. -/
def figType (p : List Nat) (k : Nat) : Nat :=
  getBits p (8 * k) 3

/-- The declared 5-bit FIG length at byte offset k. -/
def figLen (p : List Nat) (k : Nat) : Nat :=
  getBits p (8 * k + 3) 5

/-- A FIG of type 6 or 7 makes processFIB return immediately. -/
def stopFig (p : List Nat) (k : Nat) : Bool :=
  figType p k == 6 || figType p k == 7

/-- Specification-side walk: the byte offsets the dispatcher visits,
starting at 0 and advancing by the declared 5-bit length plus one,
truncated after a type-6/7 FIG or at 30 bytes. -/
def walkOffsets (p : List Nat) : Nat → Nat → List Nat
  | 0, _ => []
  | fuel + 1, k =>
    if k < 30 then
      k :: (if stopFig p k then [] else walkOffsets p fuel (k + figLen p k + 1))
    else []

/-- The byte offset at which the walk stops. -/
def walkEnd (p : List Nat) : Nat → Nat → Nat
  | 0, k => k
  | fuel + 1, k =>
    if k < 30 then
      (if stopFig p k then k else walkEnd p fuel (k + figLen p k + 1))
    else k

/-- Specification-side single-FIG dispatch (types 6/7 are handled by the
stop test in runFigs and never reach this function there). -/
def figDispatch (p : List Nat) (k now : Nat) (σ : FibState) : FibState × Bool :=
  if figType p k = 0 then (process_FIG0 (p.drop (8 * k)) now σ, false)
  else if figType p k = 1 then (process_FIG1 (p.drop (8 * k)) σ, false)
  else if figType p k = 2 then process_FIG2 (p.drop (8 * k)) σ
  else (process_FIGUnsupported (p.drop (8 * k)) σ, false)

/-- Specification-side run: process the FIGs at the walk offsets in order,
stopping with no effect at a type-6/7 FIG and stopping with the error flag
after a FIG2 decode throw. -/
def runFigs (p : List Nat) (now : Nat) : List Nat → FibState → FibState × Bool
  | [], σ => (σ, false)
  | k :: rest, σ =>
    if stopFig p k then (σ, false)
    else
      let r := figDispatch p k now σ
      if r.2 then (r.1, true) else runFigs p now rest r.1

/-- The dispatcher loop equals the specification-side run over the walk
offsets. -/
theorem processFIBLoop_eq_runFigs (p : List Nat) (now : Nat) :
    ∀ fuel k σ, processFIBLoop p now fuel k σ = runFigs p now (walkOffsets p fuel k) σ := by
  intro fuel
  induction fuel with
  | zero =>
    intro k σ
    rfl
  | succ n ih =>
    intro k σ
    unfold processFIBLoop walkOffsets
    by_cases hk : k < 30
    · simp only [if_pos hk]
      have ht : getBits (p.drop (8 * k)) 0 3 = figType p k := by
        rw [getBits_drop]
        rfl
      have hl : getBits (p.drop (8 * k)) 3 5 = figLen p k := by
        rw [getBits_drop]
        rfl
      rw [ht, hl]
      by_cases h0 : figType p k = 0
      · have hs : stopFig p k = false := by simp [stopFig, h0]
        rw [if_pos h0]
        rw [runFigs, if_neg (by simp [hs])]
        simp only [hs, Bool.false_eq_true, if_false, figDispatch, if_pos h0]
        exact ih _ _
      · rw [if_neg h0]
        by_cases h1 : figType p k = 1
        · have hs : stopFig p k = false := by simp [stopFig, h1]
          rw [if_pos h1]
          rw [runFigs, if_neg (by simp [hs])]
          simp only [hs, Bool.false_eq_true, if_false, figDispatch, if_neg h0, if_pos h1]
          exact ih _ _
        · rw [if_neg h1]
          by_cases h2 : figType p k = 2
          · have hs : stopFig p k = false := by simp [stopFig, h2]
            rw [if_pos h2]
            rw [runFigs]
            rw [if_neg (show ¬(stopFig p k = true) from by simp [hs])]
            have hd : figDispatch p k now σ = process_FIG2 (p.drop (8 * k)) σ := by
              simp [figDispatch, h0, h1, h2]
            rw [hd]
            by_cases he : (process_FIG2 (p.drop (8 * k)) σ).2 = true
            · rw [if_pos he, if_pos he]
            · rw [if_neg he, if_neg he]
              simp only [hs, Bool.false_eq_true, if_false]
              exact ih _ _
          · rw [if_neg h2]
            by_cases h6 : figType p k = 6
            · have hs : stopFig p k = true := by simp [stopFig, h6]
              rw [if_pos h6]
              rw [runFigs, if_pos (by simp [hs])]
              rfl
            · rw [if_neg h6]
              by_cases h7 : figType p k = 7
              · have hs : stopFig p k = true := by simp [stopFig, h7]
                rw [if_pos h7]
                rw [runFigs, if_pos (by simp [hs])]
                rfl
              · have hs : stopFig p k = false := by simp [stopFig, h6, h7]
                rw [if_neg h7]
                rw [runFigs, if_neg (by simp [hs])]
                simp only [hs, Bool.false_eq_true, if_false, figDispatch, if_neg h0, if_neg h1,
                  if_neg h2]
                exact ih _ _
    · simp only [if_neg hk]
      rfl


/-- A non-empty walk starts at its starting offset. -/
theorem walkOffsets_head (p : List Nat) (fuel k : Nat) :
    walkOffsets p fuel k = [] ∨ (walkOffsets p fuel k).head? = some k := by
  cases fuel with
  | zero => exact Or.inl rfl
  | succ n =>
    unfold walkOffsets
    by_cases hk : k < 30
    · right
      rw [if_pos hk]
      rfl
    · left
      rw [if_neg hk]

/-- Consecutive walk offsets differ by the declared length plus one, so the
walk strictly advances. -/
theorem walkOffsets_chain (p : List Nat) :
    ∀ fuel k, List.Chain' (fun a b => b = a + figLen p a + 1 ∧ a < b) (walkOffsets p fuel k) := by
  intro fuel
  induction fuel with
  | zero =>
    intro k
    simp [walkOffsets]
  | succ n ih =>
    intro k
    unfold walkOffsets
    by_cases hk : k < 30
    · rw [if_pos hk]
      by_cases hs : stopFig p k = true
      · simp [hs]
      · rw [if_neg hs]
        rw [List.chain'_cons']
        refine ⟨?_, ih _⟩
        intro b hb
        rcases walkOffsets_head p n (k + figLen p k + 1) with hnil | hhd
        · rw [hnil] at hb
          simp at hb
        · rw [hhd] at hb
          simp at hb
          subst hb
          exact ⟨rfl, by omega⟩
    · rw [if_neg hk]
      simp

/-- Any fuel covering the remaining bytes yields the same walk: the loop
terminates within 30 rounds. -/
theorem walkOffsets_fuel (p : List Nat) :
    ∀ f1 f2 k, 30 ≤ k + f1 → 30 ≤ k + f2 → walkOffsets p f1 k = walkOffsets p f2 k := by
  intro f1
  induction f1 with
  | zero =>
    intro f2 k h1 h2
    have hk : ¬(k < 30) := by omega
    cases f2 with
    | zero => rfl
    | succ m =>
      unfold walkOffsets
      rw [if_neg hk]
  | succ n ih =>
    intro f2 k h1 h2
    by_cases hk : k < 30
    · cases f2 with
      | zero => omega
      | succ m =>
        unfold walkOffsets
        rw [if_pos hk, if_pos hk]
        by_cases hs : stopFig p k = true
        · rw [if_pos hs, if_pos hs]
        · rw [if_neg hs, if_neg hs]
          have := ih m (k + figLen p k + 1) (by omega) (by omega)
          rw [this]
    · cases f2 with
      | zero =>
        unfold walkOffsets
        rw [if_neg hk]
      | succ m =>
        unfold walkOffsets
        rw [if_neg hk, if_neg hk]

/-- Without a type-6/7 FIG the walk only stops once at least 30 bytes are
consumed. -/
theorem walkEnd_ge30 (p : List Nat) :
    ∀ fuel k, 30 ≤ k + fuel →
      (∀ o ∈ walkOffsets p fuel k, stopFig p o = false) → 30 ≤ walkEnd p fuel k := by
  intro fuel
  induction fuel with
  | zero =>
    intro k h1 h2
    unfold walkEnd
    omega
  | succ n ih =>
    intro k h1 h2
    unfold walkEnd
    by_cases hk : k < 30
    · rw [if_pos hk]
      have hmem : k ∈ walkOffsets p (n + 1) k := by
        unfold walkOffsets
        rw [if_pos hk]
        exact List.mem_cons_self _ _
      have hs : stopFig p k = false := h2 k hmem
      rw [if_neg (show ¬(stopFig p k = true) from by simp [hs])]
      refine ih (k + figLen p k + 1) (by omega) ?_
      intro o ho
      refine h2 o ?_
      unfold walkOffsets
      rw [if_pos hk]
      rw [if_neg (show ¬(stopFig p k = true) from by simp [hs])]
      exact List.mem_cons_of_mem _ ho
    · rw [if_neg hk]
      omega


set_option maxRecDepth 100000 in
/-- Claim C5 (counterexample): on `c5Bits` no FIG of type 6 or 7 occurs at
any visited offset and the walk itself would consume all 30 bytes, yet the
dispatcher stops early: the FIG2 throw aborts the FIB (error flag set) and
the FIG0/0 at offset 5 is never executed (the ensemble id keeps its prior
value), contradicting the claim that processing repeats until 30 bytes are
consumed with only types 6/7 stopping it. -/
theorem dispatcher_stops_early_without_type67 :
    (processFIB c5State c5Bits 0).2 = true ∧
    (processFIB c5State c5Bits 0).1.ensembleId = 0x0777 ∧
    (∀ o ∈ walkOffsets c5Bits 30 0, stopFig c5Bits o = false) ∧
    30 ≤ walkEnd c5Bits 30 0 := by
  refine ⟨by decide, by decide, by decide, by decide⟩

/-- Claim C5 (amended): for every payload the dispatcher starts at byte
offset 0 and advances by the declared 5-bit length plus one (the walk
strictly increases and 30 rounds of fuel always suffice, so it terminates);
processFIB processes exactly the FIGs at the walk offsets in order; a FIG
of type 6 or 7 stops the FIB immediately, executing no further FIG and
returning the accumulated state without error so subsequent FIBs are
unaffected; and unless a type-6/7 FIG (or a FIG2 decode error, which ends
the run with the error flag) intervenes, the walk consumes all 30 bytes. -/
theorem processFIB_walk (p : List Nat) (σ : FibState) (now : Nat) :
    (walkOffsets p 30 0).head? = some 0 ∧
    List.Chain' (fun a b => b = a + figLen p a + 1 ∧ a < b) (walkOffsets p 30 0) ∧
    (∀ fuel, 30 ≤ fuel → walkOffsets p fuel 0 = walkOffsets p 30 0) ∧
    processFIB σ p now = runFigs p now (walkOffsets p 30 0) σ ∧
    (∀ k rest τ, stopFig p k = true → runFigs p now (k :: rest) τ = (τ, false)) ∧
    ((∀ o ∈ walkOffsets p 30 0, stopFig p o = false) → 30 ≤ walkEnd p 30 0) := by
  refine ⟨?_, walkOffsets_chain p 30 0, ?_, processFIBLoop_eq_runFigs p now 30 0 σ, ?_, ?_⟩
  · rfl
  · intro fuel hf
    exact walkOffsets_fuel p fuel 30 0 (by omega) (by omega)
  · intro k rest τ hs
    unfold runFigs
    rw [if_pos hs]
  · intro hno
    exact walkEnd_ge30 p 30 0 (by omega) hno

/-- Witness for C5 (amended) at the concrete payload `c5Bits`. -/
theorem processFIB_walk_witness :
    processFIB c5State c5Bits 0 = runFigs c5Bits 0 (walkOffsets c5Bits 30 0) c5State ∧
    walkOffsets c5Bits 31 0 = walkOffsets c5Bits 30 0 ∧
    30 ≤ walkEnd c5Bits 30 0 :=
  ⟨(processFIB_walk c5Bits c5State 0).2.2.2.1,
   (processFIB_walk c5Bits c5State 0).2.2.1 31 (by omega),
   (processFIB_walk c5Bits c5State 0).2.2.2.2.2 (by decide)⟩

/-- The two operations of the service debounce filter as the source invokes
them from HandleFIG0Extension2: a FIG0/2 sighting of a service id, and the
once-per-second decay pass. -/
inductive DebounceOp where
  | sight (sid : Nat)
  | decay
  deriving DecidableEq

/-- One debounce operation applied to the processor state. -/
def stepOp (σ : FibState) : DebounceOp → FibState
  | DebounceOp.sight sid => handleServiceSighting σ sid
  | DebounceOp.decay => decayServiceCounters σ

/-- A sequence of debounce operations applied in order. -/
def runOps (σ : FibState) (ops : List DebounceOp) : FibState :=
  ops.foldl stepOp σ

/-- Whether a Service row with the given id exists. -/
def hasService (σ : FibState) (s : Nat) : Bool :=
  σ.services.any (fun v => v.serviceId == s)

/-- Number of service-detected notifications for the given id. -/
def countDetect (evs : List Event) (s : Nat) : Nat :=
  evs.countP (fun e => match e with
    | Event.serviceDetected t => t == s
    | _ => false)

/-- All debounce counters are at most 4 (the saturation bound). -/
def countersLe4 (σ : FibState) : Bool :=
  σ.serviceRepeatCount.all (fun q => decide (q.2 ≤ 4))

/-- Along the run, at every step a present service stays present (this is
what the claim's phrase *a service that remains in the collection* means;
with the source's decay bug only service id 0 can ever be removed, so this
holds automatically for every other id). -/
def presPreserved (s : Nat) : FibState → List DebounceOp → Bool
  | _, [] => true
  | σ, op :: rest =>
    (!hasService σ s || hasService (stepOp σ op) s) && presPreserved s (stepOp σ op) rest

/-- The counter value after one sighting (saturating increment). -/
def satCnt (σ : FibState) (t : Nat) : Nat :=
  if lookupCount σ.serviceRepeatCount t < 4 then lookupCount σ.serviceRepeatCount t + 1
  else lookupCount σ.serviceRepeatCount t

/-- The confirmation condition of HandleFIG0Extension2: the service is
absent and the incremented counter reached 2. -/
def confirmsB (σ : FibState) (t : Nat) : Bool :=
  !hasService σ t && decide (2 ≤ satCnt σ t)

/-- findServiceId fails exactly when no row carries the id. -/
theorem findServiceId_eq_none_iff (σ : FibState) (s : Nat) :
    findServiceId σ s = none ↔ hasService σ s = false := by
  unfold findServiceId hasService
  rw [List.find?_eq_none, List.any_eq_false]

/-- A sighting appends the service-detected notification exactly when the
confirmation condition holds. -/
theorem sight_events (σ : FibState) (t : Nat) :
    (handleServiceSighting σ t).events =
      σ.events ++ (if confirmsB σ t then [Event.serviceDetected t] else []) := by
  unfold handleServiceSighting
  by_cases hp : hasService σ t = false <;> by_cases h2 : 2 ≤ satCnt σ t
  · rw [if_pos ⟨(findServiceId_eq_none_iff _ _).mpr hp, h2⟩]
    simp [confirmsB, hp, h2]
  · rw [if_neg (fun hh => h2 hh.2)]
    simp [confirmsB, hp, h2]
  · rw [if_neg (fun hh => hp ((findServiceId_eq_none_iff _ _).mp hh.1))]
    simp [confirmsB, hp]
  · rw [if_neg (fun hh => hp ((findServiceId_eq_none_iff _ _).mp hh.1))]
    simp [confirmsB, hp]


/-- A sighting appends the Service row exactly when the confirmation
condition holds. -/
theorem sight_services (σ : FibState) (t : Nat) :
    (handleServiceSighting σ t).services =
      σ.services ++ (if confirmsB σ t then [mkService t] else []) := by
  unfold handleServiceSighting
  by_cases hp : hasService σ t = false <;> by_cases h2 : 2 ≤ satCnt σ t
  · rw [if_pos ⟨(findServiceId_eq_none_iff _ _).mpr hp, h2⟩]
    simp [confirmsB, hp, h2]
  · rw [if_neg (fun hh => h2 hh.2)]
    simp [confirmsB, hp, h2]
  · rw [if_neg (fun hh => hp ((findServiceId_eq_none_iff _ _).mp hh.1))]
    simp [confirmsB, hp]
  · rw [if_neg (fun hh => hp ((findServiceId_eq_none_iff _ _).mp hh.1))]
    simp [confirmsB, hp]

/-- A sighting stores the saturating increment in the counter map. -/
theorem sight_rc (σ : FibState) (t : Nat) :
    (handleServiceSighting σ t).serviceRepeatCount =
      setCount σ.serviceRepeatCount t (satCnt σ t) := by
  unfold handleServiceSighting
  by_cases hcond : (findServiceId { σ with
      serviceRepeatCount := setCount σ.serviceRepeatCount t
        (if lookupCount σ.serviceRepeatCount t < 4 then lookupCount σ.serviceRepeatCount t + 1
         else lookupCount σ.serviceRepeatCount t) } t = none ∧
      2 ≤ (if lookupCount σ.serviceRepeatCount t < 4 then lookupCount σ.serviceRepeatCount t + 1
           else lookupCount σ.serviceRepeatCount t))
  · rw [if_pos hcond]
    rfl
  · rw [if_neg hcond]
    rfl

/-- Reading back a stored counter. -/
theorem lookupCount_setCount_self (l : List (Nat × Nat)) (sid v : Nat) :
    lookupCount (setCount l sid v) sid = v := by
  induction l with
  | nil => simp [setCount, lookupCount]
  | cons q r ih =>
    by_cases hq : q.1 = sid
    · simp [setCount, hq, lookupCount]
    · simp only [setCount, if_neg hq]
      unfold lookupCount
      rw [List.find?_cons_of_neg _ (by simpa using hq)]
      exact ih

/-- Entries of the counter map after a store. -/
theorem mem_setCount (l : List (Nat × Nat)) (sid v : Nat) (q : Nat × Nat)
    (h : q ∈ setCount l sid v) : q = (sid, v) ∨ q ∈ l := by
  induction l with
  | nil =>
    simp [setCount] at h
    exact Or.inl h
  | cons a r ih =>
    by_cases ha : a.1 = sid
    · rw [setCount, if_pos ha] at h
      rcases List.mem_cons.mp h with h1 | h2
      · exact Or.inl h1
      · exact Or.inr (List.mem_cons_of_mem _ h2)
    · rw [setCount, if_neg ha] at h
      rcases List.mem_cons.mp h with h1 | h2
      · exact Or.inr (h1 ▸ List.mem_cons_self _ _)
      · rcases ih h2 with h3 | h4
        · exact Or.inl h3
        · exact Or.inr (List.mem_cons_of_mem _ h4)

/-- A looked-up counter respects the saturation bound. -/
theorem lookupCount_le4 (σ : FibState) (t : Nat) (hc : countersLe4 σ = true) :
    lookupCount σ.serviceRepeatCount t ≤ 4 := by
  unfold lookupCount
  cases hfind : σ.serviceRepeatCount.find? (fun q => q.1 == t) with
  | none => exact Nat.zero_le 4
  | some q =>
    have hq := List.mem_of_find?_eq_some hfind
    have := (List.all_eq_true.mp hc) q hq
    simpa using this

/-- Under the saturation invariant the incremented counter is
min(previous + 1, 4). -/
theorem satCnt_min (σ : FibState) (t : Nat) (hc : countersLe4 σ = true) :
    satCnt σ t = min (lookupCount σ.serviceRepeatCount t + 1) 4 := by
  have h4 := lookupCount_le4 σ t hc
  unfold satCnt
  by_cases hlt : lookupCount σ.serviceRepeatCount t < 4
  · rw [if_pos hlt]
    omega
  · rw [if_neg hlt]
    omega

/-- A sighting preserves the saturation bound. -/
theorem sight_countersLe4 (σ : FibState) (t : Nat) (hc : countersLe4 σ = true) :
    countersLe4 (handleServiceSighting σ t) = true := by
  have h4 := lookupCount_le4 σ t hc
  rw [countersLe4, List.all_eq_true]
  intro q hq
  rw [sight_rc] at hq
  rcases mem_setCount _ _ _ _ hq with h1 | h2
  · subst h1
    simp only [decide_eq_true_eq]
    unfold satCnt
    by_cases hlt : lookupCount σ.serviceRepeatCount t < 4
    · rw [if_pos hlt]; omega
    · rw [if_neg hlt]; omega
  · exact (List.all_eq_true.mp hc) q h2


/-- dropService fires no notifications. -/
theorem dropService_events (σ : FibState) (x : Nat) :
    (dropService σ x).events = σ.events :=
  rfl

/-- dropService does not touch the counter map. -/
theorem dropService_rc (σ : FibState) (x : Nat) :
    (dropService σ x).serviceRepeatCount = σ.serviceRepeatCount :=
  rfl

/-- dropService never adds a service. -/
theorem dropService_hasService_false (σ : FibState) (x s : Nat)
    (h : hasService σ s = false) : hasService (dropService σ x) s = false := by
  rw [hasService, List.any_eq_false] at h ⊢
  intro a ha
  exact h a (List.mem_of_mem_filter ha)

/-- The decay loop fires no notifications. -/
theorem decayLoop_events : ∀ (l : List (Nat × Nat)) (σ : FibState),
    ((decayLoop l σ).2).events = σ.events := by
  intro l
  induction l with
  | nil => intro σ; rfl
  | cons q r ih =>
    intro σ
    unfold decayLoop
    by_cases hq : 0 < q.2
    · rw [if_pos hq]
      exact ih σ
    · rw [if_neg hq]
      rw [ih (dropService σ q.2)]
      rfl

/-- The decay loop never adds a service. -/
theorem decayLoop_hasService_false : ∀ (l : List (Nat × Nat)) (σ : FibState) (s : Nat),
    hasService σ s = false → hasService ((decayLoop l σ).2) s = false := by
  intro l
  induction l with
  | nil => intro σ s h; exact h
  | cons q r ih =>
    intro σ s h
    unfold decayLoop
    by_cases hq : 0 < q.2
    · rw [if_pos hq]
      exact ih σ s h
    · rw [if_neg hq]
      exact ih (dropService σ q.2) s (dropService_hasService_false σ q.2 s h)
  -- note: decayLoop destructures the pair, so these branches mirror its match

/-- The decay loop only lowers counters. -/
theorem decayLoop_counters : ∀ (l : List (Nat × Nat)) (σ : FibState),
    (∀ q ∈ l, q.2 ≤ 4) → ∀ q ∈ (decayLoop l σ).1, q.2 ≤ 4 := by
  intro l
  induction l with
  | nil =>
    intro σ h q hq
    simp [decayLoop] at hq
  | cons a r ih =>
    intro σ h q hq
    unfold decayLoop at hq
    by_cases ha : 0 < a.2
    · rw [if_pos ha] at hq
      rcases List.mem_cons.mp hq with h1 | h2
      · subst h1
        have := h a (List.mem_cons_self _ _)
        simp only []
        omega
      · exact ih σ (fun x hx => h x (List.mem_cons_of_mem _ hx)) q h2
    · rw [if_neg ha] at hq
      exact ih (dropService σ a.2) (fun x hx => h x (List.mem_cons_of_mem _ hx)) q hq

/-- The decay pass fires no notifications. -/
theorem decay_events (σ : FibState) :
    (decayServiceCounters σ).events = σ.events := by
  unfold decayServiceCounters
  exact decayLoop_events σ.serviceRepeatCount σ

/-- The decay pass never adds a service. -/
theorem decay_hasService_false (σ : FibState) (s : Nat) (h : hasService σ s = false) :
    hasService (decayServiceCounters σ) s = false := by
  unfold decayServiceCounters
  exact decayLoop_hasService_false σ.serviceRepeatCount σ s h

/-- The decay pass preserves the saturation bound. -/
theorem decay_countersLe4 (σ : FibState) (hc : countersLe4 σ = true) :
    countersLe4 (decayServiceCounters σ) = true := by
  rw [countersLe4, List.all_eq_true]
  intro q hq
  simp only [decide_eq_true_eq]
  refine decayLoop_counters σ.serviceRepeatCount σ ?_ q hq
  intro x hx
  have := (List.all_eq_true.mp hc) x hx
  simpa using this


/-- Unfolding one step of a run. -/
theorem runOps_cons (σ : FibState) (op : DebounceOp) (rest : List DebounceOp) :
    runOps σ (op :: rest) = runOps (stepOp σ op) rest :=
  rfl

/-- Notification counts add over appended event lists. -/
theorem countDetect_append (l1 l2 : List Event) (s : Nat) :
    countDetect (l1 ++ l2) s = countDetect l1 s + countDetect l2 s := by
  unfold countDetect
  exact List.countP_append _ _ _

/-- Service presence after a sighting. -/
theorem sight_hasService (σ : FibState) (t s : Nat) :
    hasService (handleServiceSighting σ t) s =
      (hasService σ s || (confirmsB σ t && t == s)) := by
  unfold hasService
  rw [sight_services, List.any_append]
  congr 1
  by_cases hcf : confirmsB σ t = true
  · rw [if_pos hcf, hcf]
    simp [mkService]
  · have hcf2 : confirmsB σ t = false := Bool.eq_false_iff.mpr hcf
    rw [if_neg hcf, hcf2]
    simp

/-- Notification count change of one sighting step. -/
theorem step_events_sight (σ : FibState) (t s : Nat) :
    countDetect (stepOp σ (DebounceOp.sight t)).events s =
      countDetect σ.events s + (if confirmsB σ t = true ∧ t = s then 1 else 0) := by
  show countDetect (handleServiceSighting σ t).events s = _
  rw [sight_events, countDetect_append]
  congr 1
  by_cases hcf : confirmsB σ t = true
  · rw [if_pos hcf]
    by_cases hts : t = s
    · subst hts
      rw [if_pos ⟨hcf, rfl⟩]
      simp [countDetect]
    · rw [if_neg (fun hh => hts hh.2)]
      simp [countDetect, hts]
  · rw [if_neg hcf]
    rw [if_neg (fun hh => hcf hh.1)]
    simp [countDetect]

/-- A decay step changes no notification count. -/
theorem step_events_decay (σ : FibState) (s : Nat) :
    countDetect (stepOp σ DebounceOp.decay).events s = countDetect σ.events s := by
  show countDetect (decayServiceCounters σ).events s = _
  rw [decay_events]

/-- Once the service is present and stays present, no further notification
for it is ever fired. -/
theorem runOps_present (s : Nat) : ∀ (ops : List DebounceOp) (σ : FibState),
    hasService σ s = true → presPreserved s σ ops = true →
    countDetect (runOps σ ops).events s = countDetect σ.events s ∧
    hasService (runOps σ ops) s = true := by
  intro ops
  induction ops with
  | nil =>
    intro σ h _
    exact ⟨rfl, h⟩
  | cons op rest ih =>
    intro σ h hpp
    rw [presPreserved, Bool.and_eq_true] at hpp
    have hnext : hasService (stepOp σ op) s = true := by
      have h1 := hpp.1
      rw [h] at h1
      simpa using h1
    have hrec := ih (stepOp σ op) hnext hpp.2
    rw [runOps_cons]
    refine ⟨?_, hrec.2⟩
    rw [hrec.1]
    cases op with
    | decay => exact step_events_decay σ s
    | sight t =>
      rw [step_events_sight]
      by_cases hts : t = s
      · subst hts
        have hcf : confirmsB σ t = false := by
          unfold confirmsB
          rw [h]
          rfl
        rw [if_neg (fun hh => by rw [hcf] at hh; exact Bool.false_ne_true hh.1)]
        omega
      · rw [if_neg (fun hh => hts hh.2)]
        omega

/-- Starting absent and never being removed once added, the number of
service-detected notifications over the run is exactly one when the service
ends up in the collection and zero otherwise. -/
theorem runOps_absent (s : Nat) : ∀ (ops : List DebounceOp) (σ : FibState),
    hasService σ s = false → presPreserved s σ ops = true →
    countDetect (runOps σ ops).events s =
      countDetect σ.events s + (if hasService (runOps σ ops) s = true then 1 else 0) := by
  intro ops
  induction ops with
  | nil =>
    intro σ h _
    show countDetect σ.events s = countDetect σ.events s + (if hasService σ s = true then 1 else 0)
    rw [h]
    simp
  | cons op rest ih =>
    intro σ h hpp
    rw [presPreserved, Bool.and_eq_true] at hpp
    rw [runOps_cons]
    cases op with
    | decay =>
      have hh : hasService (stepOp σ DebounceOp.decay) s = false :=
        decay_hasService_false σ s h
      rw [ih _ hh hpp.2, step_events_decay]
    | sight t =>
      by_cases hconf : confirmsB σ t = true ∧ t = s
      · obtain ⟨hcf, hts⟩ := hconf
        subst hts
        have hpres : hasService (stepOp σ (DebounceOp.sight t)) t = true := by
          show hasService (handleServiceSighting σ t) t = true
          rw [sight_hasService, hcf]
          simp
        have hrun := runOps_present t rest _ hpres hpp.2
        rw [hrun.1, step_events_sight, if_pos hrun.2]
        rw [if_pos ⟨hcf, rfl⟩]
      · have hstill : hasService (stepOp σ (DebounceOp.sight t)) s = false := by
          show hasService (handleServiceSighting σ t) s = false
          rw [sight_hasService, h]
          by_cases hts : t = s
          · subst hts
            have hcf : confirmsB σ t = false := by
              rcases Bool.eq_false_or_eq_true (confirmsB σ t) with hx | hx
              · exact absurd ⟨hx, rfl⟩ hconf
              · exact hx
            rw [hcf]
            rfl
          · simp [hts]
        rw [ih _ hstill hpp.2, step_events_sight]
        rw [if_neg hconf]
        omega


/-- Runs preserve the saturation bound. -/
theorem runOps_countersLe4 : ∀ (ops : List DebounceOp) (σ : FibState),
    countersLe4 σ = true → countersLe4 (runOps σ ops) = true := by
  intro ops
  induction ops with
  | nil =>
    intro σ h
    exact h
  | cons op rest ih =>
    intro σ h
    rw [runOps_cons]
    refine ih _ ?_
    cases op with
    | sight t => exact sight_countersLe4 σ t h
    | decay => exact decay_countersLe4 σ h

/-- Claim C2: the FIG0/2 debounce filter.  Each sighting stores the
saturating counter min(previous + 1, 4); the Service row is created and the
service-detected notification fired exactly when the service is absent and
that counter reached at least 2; and over any sequence of sightings and
decay passes in which the service, once in the collection, remains there,
the notification fires exactly once when the service ends up confirmed
(and never otherwise). -/
theorem fig02_debounce_confirms (σ : FibState) (s : Nat) (ops : List DebounceOp)
    (h0 : hasService σ s = false)
    (hc : countersLe4 σ = true)
    (hk : presPreserved s σ ops = true) :
    (∀ τ t, countersLe4 τ = true →
        lookupCount (handleServiceSighting τ t).serviceRepeatCount t =
          min (lookupCount τ.serviceRepeatCount t + 1) 4) ∧
    (∀ τ t, countersLe4 τ = true →
        (handleServiceSighting τ t).events = τ.events ++
          (if hasService τ t = false ∧ 2 ≤ min (lookupCount τ.serviceRepeatCount t + 1) 4
           then [Event.serviceDetected t] else []) ∧
        (handleServiceSighting τ t).services = τ.services ++
          (if hasService τ t = false ∧ 2 ≤ min (lookupCount τ.serviceRepeatCount t + 1) 4
           then [mkService t] else [])) ∧
    countersLe4 (runOps σ ops) = true ∧
    countDetect (runOps σ ops).events s =
      countDetect σ.events s + (if hasService (runOps σ ops) s = true then 1 else 0) := by
  refine ⟨?_, ?_, runOps_countersLe4 ops σ hc, runOps_absent s ops σ h0 hk⟩
  · intro τ t hct
    rw [sight_rc, lookupCount_setCount_self, satCnt_min τ t hct]
  · intro τ t hct
    have hcb : confirmsB τ t = true ↔
        (hasService τ t = false ∧ 2 ≤ min (lookupCount τ.serviceRepeatCount t + 1) 4) := by
      rw [← satCnt_min τ t hct]
      unfold confirmsB
      rw [Bool.and_eq_true, Bool.not_eq_true', decide_eq_true_iff]
    constructor
    · rw [sight_events]
      congr 1
      exact if_congr hcb rfl rfl
    · rw [sight_services]
      congr 1
      exact if_congr hcb rfl rfl

/-- Two sightings confirm service 7; the decay tick and a later sighting
fire nothing further. -/
def w2Ops : List DebounceOp :=
  [DebounceOp.sight 7, DebounceOp.sight 7, DebounceOp.decay, DebounceOp.sight 7]

/-- Witness for C2 on a concrete run from the freshly cleared state. -/
theorem fig02_debounce_confirms_witness :
    countDetect (runOps (initialState 0) w2Ops).events 7 =
      countDetect (initialState 0).events 7 +
        (if hasService (runOps (initialState 0) w2Ops) 7 = true then 1 else 0) :=
  (fig02_debounce_confirms (initialState 0) 7 w2Ops (by decide) (by decide) (by decide)).2.2.2

/-- The (serviceId, componentNumber) keys of the component collection. -/
def compKeys (σ : FibState) : List (Nat × Nat) :=
  σ.components.map (fun c => (c.SId, c.componentNr))

/-- The ids of the service collection. -/
def svcIds (σ : FibState) : List Nat :=
  σ.services.map (fun s => s.serviceId)

/-- The claim C7 invariant: every component's serviceId foreign key refers
to a present Service, and the (serviceId, componentNumber) keys are
pairwise distinct (at most one component per pair). -/
def componentsInv (σ : FibState) : Prop :=
  (∀ k ∈ compKeys σ, k.1 ∈ svcIds σ) ∧ (compKeys σ).Nodup

/-- The invariant only depends on the component keys and service ids. -/
theorem inv_of_eq (σ' σ : FibState) (hck : compKeys σ' = compKeys σ)
    (hsi : svcIds σ' = svcIds σ) (h : componentsInv σ) : componentsInv σ' := by
  unfold componentsInv
  rw [hck, hsi]
  exact h

/-- Adding services preserves the invariant. -/
theorem inv_of_svc_append (σ' σ : FibState) (l : List Service)
    (hck : compKeys σ' = compKeys σ)
    (hsi : σ'.services = σ.services ++ l)
    (h : componentsInv σ) : componentsInv σ' := by
  unfold componentsInv
  rw [hck]
  refine ⟨?_, h.2⟩
  intro k hk
  have := h.1 k hk
  unfold svcIds at this ⊢
  rw [hsi, List.map_append]
  exact List.mem_append_left _ this

/-- updateFirst with a field-preserving function keeps any mapped view. -/
theorem map_updateFirst (g : α → β) (p : α → Bool) (f : α → α)
    (hf : ∀ a, g (f a) = g a) : ∀ l : List α, (updateFirst p f l).map g = l.map g := by
  intro l
  induction l with
  | nil => rfl
  | cons a r ih =>
    unfold updateFirst
    by_cases hp : p a = true
    · rw [if_pos hp]
      simp [hf a]
    · rw [if_neg hp]
      simp only [List.map_cons, ih]


/-- FIG0/0 does not touch components or services. -/
theorem fig00_untouched (d : List Nat) (now : Nat) (σ : FibState) :
    (FIG0Extension0 d now σ).components = σ.components ∧
    (FIG0Extension0 d now σ).services = σ.services := by
  constructor <;>
    simp only [FIG0Extension0] <;>
    split <;> split <;> rfl

/-- A FIG0/1 record only touches subchannels. -/
theorem h01_untouched (d : List Nat) (off pd : Nat) (σ : FibState) :
    (HandleFIG0Extension1 d off pd σ).2.components = σ.components ∧
    (HandleFIG0Extension1 d off pd σ).2.services = σ.services := by
  constructor <;>
    simp only [HandleFIG0Extension1] <;>
    split <;> rfl

/-- The FIG0/1 loop only touches subchannels. -/
theorem fig01Loop_untouched (d : List Nat) (pd Length : Nat) :
    ∀ fuel used σ, (fig01Loop d pd Length fuel used σ).components = σ.components ∧
      (fig01Loop d pd Length fuel used σ).services = σ.services := by
  intro fuel
  induction fuel with
  | zero => intro used σ; exact ⟨rfl, rfl⟩
  | succ n ih =>
    intro used σ
    unfold fig01Loop
    by_cases hu : used < Length - 1
    · rw [if_pos hu]
      have h1 := h01_untouched d used pd σ
      have h2 := ih (HandleFIG0Extension1 d used pd σ).1 (HandleFIG0Extension1 d used pd σ).2
      exact ⟨h2.1.trans h1.1, h2.2.trans h1.2⟩
    · rw [if_neg hu]
      exact ⟨rfl, rfl⟩

/-- A FIG0/5 record only touches subchannels. -/
theorem h05_untouched (d : List Nat) (off : Nat) (σ : FibState) :
    (HandleFIG0Extension5 d off σ).2.components = σ.components ∧
    (HandleFIG0Extension5 d off σ).2.services = σ.services := by
  constructor <;>
    simp only [HandleFIG0Extension5] <;>
    split <;> first
      | rfl
      | (split <;> rfl)

/-- The FIG0/5 loop only touches subchannels. -/
theorem fig05Loop_untouched (d : List Nat) (Length : Nat) :
    ∀ fuel used σ, (fig05Loop d Length fuel used σ).components = σ.components ∧
      (fig05Loop d Length fuel used σ).services = σ.services := by
  intro fuel
  induction fuel with
  | zero => intro used σ; exact ⟨rfl, rfl⟩
  | succ n ih =>
    intro used σ
    unfold fig05Loop
    by_cases hu : used < Length
    · rw [if_pos hu]
      have h1 := h05_untouched d used σ
      have h2 := ih (HandleFIG0Extension5 d used σ).1 (HandleFIG0Extension5 d used σ).2
      exact ⟨h2.1.trans h1.1, h2.2.trans h1.2⟩
    · rw [if_neg hu]
      exact ⟨rfl, rfl⟩

/-- FIG0/9 only touches the date/time and ECC fields. -/
theorem fig09_untouched (d : List Nat) (σ : FibState) :
    (FIG0Extension9 d σ).components = σ.components ∧
    (FIG0Extension9 d σ).services = σ.services :=
  ⟨rfl, rfl⟩

/-- FIG0/10 only touches the date/time and events. -/
theorem fig10_untouched (d : List Nat) (σ : FibState) :
    (FIG0Extension10 d σ).components = σ.components ∧
    (FIG0Extension10 d σ).services = σ.services := by
  constructor <;>
    simp only [FIG0Extension10] <;>
    split <;> split <;> split <;> rfl

/-- The FIG0/14 loop only touches subchannels. -/
theorem fig14Loop_untouched (d : List Nat) (length : Nat) :
    ∀ fuel used σ, (fig14Loop d length fuel used σ).components = σ.components ∧
      (fig14Loop d length fuel used σ).services = σ.services := by
  intro fuel
  induction fuel with
  | zero => intro used σ; exact ⟨rfl, rfl⟩
  | succ n ih =>
    intro used σ
    unfold fig14Loop
    by_cases hu : used < length
    · rw [if_pos hu]
      exact ih (used + 1) _
    · rw [if_neg hu]
      exact ⟨rfl, rfl⟩


/-- compKeys only reads the component list. -/
theorem compKeys_ext (σ' σ : FibState) (h : σ'.components = σ.components) :
    compKeys σ' = compKeys σ := by
  unfold compKeys
  rw [h]

/-- svcIds only reads the service list. -/
theorem svcIds_ext (σ' σ : FibState) (h : σ'.services = σ.services) :
    svcIds σ' = svcIds σ := by
  unfold svcIds
  rw [h]

/-- Updating service fields other than the id keeps the id view. -/
theorem svcIds_updateFirst (σ : FibState) (p : Service → Bool) (f : Service → Service)
    (hf : ∀ s, (f s).serviceId = s.serviceId) :
    svcIds { σ with services := updateFirst p f σ.services } = svcIds σ := by
  unfold svcIds
  exact map_updateFirst _ _ _ (fun a => hf a) σ.services

/-- Updating component fields other than the key keeps the key view. -/
theorem compKeys_updateFirst (σ : FibState) (p : ServiceComponent → Bool)
    (f : ServiceComponent → ServiceComponent)
    (hf : ∀ c, (f c).SId = c.SId ∧ (f c).componentNr = c.componentNr) :
    compKeys { σ with components := updateFirst p f σ.components } = compKeys σ := by
  unfold compKeys
  refine map_updateFirst _ _ _ (fun a => ?_) σ.components
  rw [Prod.mk.injEq]
  exact hf a

/-- A FIG0/3 record rewrites packet-component fields but never the
(serviceId, componentNumber) key, and leaves services alone. -/
theorem h03_keys (d : List Nat) (used : Nat) (σ : FibState) :
    compKeys (HandleFIG0Extension3 d used σ).2 = compKeys σ ∧
    svcIds (HandleFIG0Extension3 d used σ).2 = svcIds σ := by
  simp only [HandleFIG0Extension3]
  cases hf : findPacketComponent σ (getBits d (used * 8) 12) with
  | none => exact ⟨rfl, rfl⟩
  | some c =>
    constructor
    · exact compKeys_updateFirst σ _ _ (fun a => ⟨rfl, rfl⟩)
    · rfl

/-- The FIG0/3 loop preserves keys and services. -/
theorem fig03Loop_keys (d : List Nat) (Length : Nat) :
    ∀ fuel used σ, compKeys (fig03Loop d Length fuel used σ) = compKeys σ ∧
      svcIds (fig03Loop d Length fuel used σ) = svcIds σ := by
  intro fuel
  induction fuel with
  | zero => intro used σ; exact ⟨rfl, rfl⟩
  | succ n ih =>
    intro used σ
    simp only [fig03Loop]
    by_cases hu : used < Length
    · rw [if_pos hu]
      have h1 := h03_keys d used σ
      have h2 := ih (HandleFIG0Extension3 d used σ).1 (HandleFIG0Extension3 d used σ).2
      exact ⟨h2.1.trans h1.1, h2.2.trans h1.2⟩
    · rw [if_neg hu]
      exact ⟨rfl, rfl⟩

/-- The FIG0/17 loop rewrites service language/programme type but never
ids or component keys. -/
theorem fig17Loop_keys (d : List Nat) (length : Nat) :
    ∀ fuel off σ, compKeys (fig17Loop d length fuel off σ) = compKeys σ ∧
      svcIds (fig17Loop d length fuel off σ) = svcIds σ := by
  intro fuel
  induction fuel with
  | zero => intro off σ; exact ⟨rfl, rfl⟩
  | succ n ih =>
    intro off σ
    simp only [fig17Loop]
    by_cases hoff : off < length * 8
    · rw [if_pos hoff]
      by_cases hL : getBits d (off + 18) 1 = 1 <;>
        by_cases hp : (findServiceId σ (getBits d off 16)).isSome = true <;>
          simp only [hL, hp, if_true, if_false, ite_true, ite_false] <;>
          refine ⟨(ih _ _).1.trans ?_, (ih _ _).2.trans ?_⟩ <;>
          simp [compKeys, svcIds, map_updateFirst]
    · rw [if_neg hoff]
      exact ⟨rfl, rfl⟩


/-- FIG1 label handling preserves component keys and service ids. -/
theorem fig1_keys (d : List Nat) (σ : FibState) :
    compKeys (process_FIG1 d σ) = compKeys σ ∧ svcIds (process_FIG1 d σ) = svcIds σ := by
  constructor <;>
    (simp only [process_FIG1]; repeat' split) <;>
    simp [compKeys, svcIds, map_updateFirst]

/-- FIG2 label handling preserves component keys and service ids (also on
the throwing path, whose partial mutations only touch labels). -/
theorem fig2_keys (d : List Nat) (σ : FibState) :
    compKeys (process_FIG2 d σ).1 = compKeys σ ∧ svcIds (process_FIG2 d σ).1 = svcIds σ := by
  constructor <;>
    (simp only [process_FIG2]; repeat' split) <;>
    simp [compKeys, svcIds, map_updateFirst]


/-- dropService preserves the invariant: it removes the service together
with all components keyed by it. -/
theorem dropService_inv (σ : FibState) (x : Nat) (h : componentsInv σ) :
    componentsInv (dropService σ x) := by
  obtain ⟨hfk, hnd⟩ := h
  constructor
  · intro k hk
    have hk' : k ∈ (σ.components.filter (fun c => c.SId != x)).map
        (fun c => (c.SId, c.componentNr)) := hk
    simp only [List.mem_map, List.mem_filter, bne_iff_ne] at hk'
    obtain ⟨c, ⟨hc, hcx⟩, hkey⟩ := hk'
    have hks := hfk k (by
      show k ∈ σ.components.map (fun c => (c.SId, c.componentNr))
      exact List.mem_map.mpr ⟨c, hc, hkey⟩)
    show k.1 ∈ (dropService σ x).services.map (fun s => s.serviceId)
    have hsvc : (dropService σ x).services = σ.services.filter (fun s => s.serviceId != x) := rfl
    rw [hsvc]
    have hks' : k.1 ∈ σ.services.map (fun s => s.serviceId) := hks
    simp only [List.mem_map, List.mem_filter, bne_iff_ne] at hks' ⊢
    obtain ⟨s, hs, hsid⟩ := hks'
    refine ⟨s, ⟨hs, ?_⟩, hsid⟩
    rw [hsid, ← hkey]
    exact hcx
  · show ((σ.components.filter (fun c => c.SId != x)).map
      (fun c => (c.SId, c.componentNr))).Nodup
    exact List.Nodup.sublist (List.Sublist.map _ (List.filter_sublist _)) hnd

/-- The decay loop preserves the invariant. -/
theorem decayLoop_inv : ∀ (l : List (Nat × Nat)) (σ : FibState),
    componentsInv σ → componentsInv ((decayLoop l σ).2) := by
  intro l
  induction l with
  | nil => intro σ h; exact h
  | cons q r ih =>
    intro σ h
    unfold decayLoop
    by_cases hq : 0 < q.2
    · rw [if_pos hq]
      exact ih σ h
    · rw [if_neg hq]
      exact ih (dropService σ q.2) (dropService_inv σ q.2 h)

/-- The decay pass preserves the invariant. -/
theorem decay_inv (σ : FibState) (h : componentsInv σ) :
    componentsInv (decayServiceCounters σ) := by
  refine inv_of_eq _ ((decayLoop σ.serviceRepeatCount σ).2) rfl rfl ?_
  exact decayLoop_inv σ.serviceRepeatCount σ h

/-- The guarded decay pass preserves the invariant. -/
theorem maybeDecay_inv (σ : FibState) (now : Nat) (h : componentsInv σ) :
    componentsInv (maybeDecay σ now) := by
  unfold maybeDecay
  split
  · exact inv_of_eq _ (decayServiceCounters σ) rfl rfl (decay_inv σ h)
  · exact h

/-- A sighting never touches components. -/
theorem sight_components (σ : FibState) (t : Nat) :
    (handleServiceSighting σ t).components = σ.components := by
  simp only [handleServiceSighting]
  split <;> split <;> rfl

/-- A sighting preserves the invariant (it can only add a service). -/
theorem sight_inv (σ : FibState) (t : Nat) (h : componentsInv σ) :
    componentsInv (handleServiceSighting σ t) := by
  refine inv_of_svc_append _ σ (if confirmsB σ t then [mkService t] else [])
    (compKeys_ext _ _ (sight_components σ t)) (sight_services σ t) h

/-- Appending one component whose serviceId is present and whose key is
fresh preserves the invariant. -/
theorem inv_append_comp (σ' σ : FibState) (c : ServiceComponent)
    (hck : σ'.components = σ.components ++ [c])
    (hsv : σ'.services = σ.services)
    (hin : c.SId ∈ svcIds σ)
    (hnot : (c.SId, c.componentNr) ∉ compKeys σ)
    (h : componentsInv σ) : componentsInv σ' := by
  unfold componentsInv compKeys svcIds at h ⊢
  rw [hck, hsv, List.map_append]
  constructor
  · intro k hk
    rcases List.mem_append.mp hk with h1 | h2
    · exact h.1 k h1
    · simp only [List.map_cons, List.map_nil, List.mem_singleton] at h2
      rw [h2]
      exact hin
  · rw [List.nodup_append]
    refine ⟨h.2, List.nodup_singleton _, ?_⟩
    intro a ha hb
    simp only [List.map_cons, List.map_nil, List.mem_singleton] at hb
    rw [hb] at ha
    exact hnot ha


/-- A successful findServiceId witnesses the id in the service list. -/
theorem find_sid_mem (σ : FibState) (SId : Nat) (s : Service)
    (hf : findServiceId σ SId = some s) : SId ∈ svcIds σ ∧ s.serviceId = SId := by
  have hm := List.mem_of_find?_eq_some hf
  have hp := List.find?_some hf
  simp only [beq_iff_eq] at hp
  refine ⟨?_, hp⟩
  unfold svcIds
  exact List.mem_map.mpr ⟨s, hm, hp⟩

/-- A key already present makes the duplicate check fire. -/
theorem any_of_key_mem (σ : FibState) (s : Service) (SId compnr : Nat)
    (hp : s.serviceId = SId)
    (hk : (SId, compnr) ∈ compKeys σ) :
    (σ.components.any fun sc => sc.SId == s.serviceId && sc.componentNr == compnr) = true := by
  unfold compKeys at hk
  simp only [List.mem_map] at hk
  obtain ⟨c, hc, hkey⟩ := hk
  refine List.any_eq_true.mpr ⟨c, hc, ?_⟩
  have h1 : c.SId = SId := congrArg Prod.fst hkey
  have h2 : c.componentNr = compnr := congrArg Prod.snd hkey
  simp [h1, h2, hp]

/-- bindAudioService preserves the invariant. -/
theorem bindAudioService_inv (σ : FibState) (TMid SId compnr x y z : Nat)
    (h : componentsInv σ) : componentsInv (bindAudioService σ TMid SId compnr x y z) := by
  unfold bindAudioService
  cases hf : findServiceId σ SId with
  | none => exact h
  | some s =>
    change componentsInv (if (σ.components.any fun sc =>
        sc.SId == s.serviceId && sc.componentNr == compnr) = true then σ else _)
    by_cases hany :
        (σ.components.any fun sc => sc.SId == s.serviceId && sc.componentNr == compnr) = true
    · rw [if_pos hany]
      exact h
    · rw [if_neg hany]
      refine inv_append_comp _ σ _ rfl rfl (find_sid_mem σ SId s hf).1 ?_ h
      intro hk
      exact hany (any_of_key_mem σ s SId compnr (find_sid_mem σ SId s hf).2 hk)

/-- bindDataStreamService preserves the invariant. -/
theorem bindDataStreamService_inv (σ : FibState) (TMid SId compnr x y z : Nat)
    (h : componentsInv σ) : componentsInv (bindDataStreamService σ TMid SId compnr x y z) := by
  unfold bindDataStreamService
  cases hf : findServiceId σ SId with
  | none => exact h
  | some s =>
    change componentsInv (if (σ.components.any fun sc =>
        sc.SId == s.serviceId && sc.componentNr == compnr) = true then σ else _)
    by_cases hany :
        (σ.components.any fun sc => sc.SId == s.serviceId && sc.componentNr == compnr) = true
    · rw [if_pos hany]
      exact h
    · rw [if_neg hany]
      refine inv_append_comp _ σ _ rfl rfl (find_sid_mem σ SId s hf).1 ?_ h
      intro hk
      exact hany (any_of_key_mem σ s SId compnr (find_sid_mem σ SId s hf).2 hk)

/-- bindPacketService preserves the invariant. -/
theorem bindPacketService_inv (σ : FibState) (TMid SId compnr x y z : Nat)
    (h : componentsInv σ) : componentsInv (bindPacketService σ TMid SId compnr x y z) := by
  unfold bindPacketService
  cases hf : findServiceId σ SId with
  | none => exact h
  | some s =>
    change componentsInv (if (σ.components.any fun sc =>
        sc.SId == s.serviceId && sc.componentNr == compnr) = true then σ else _)
    by_cases hany :
        (σ.components.any fun sc => sc.SId == s.serviceId && sc.componentNr == compnr) = true
    · rw [if_pos hany]
      exact h
    · rw [if_neg hany]
      refine inv_append_comp _ σ _ rfl rfl (find_sid_mem σ SId s hf).1 ?_ h
      intro hk
      exact hany (any_of_key_mem σ s SId compnr (find_sid_mem σ SId s hf).2 hk)

/-- The FIG0/2 component loop preserves the invariant. -/
theorem fig02CompLoop_inv (d : List Nat) (SId : Nat) :
    ∀ cnt i lOffset σ, componentsInv σ →
      componentsInv (fig02CompLoop d SId cnt i lOffset σ).2 := by
  intro cnt
  induction cnt with
  | zero => intro i lOffset σ h; exact h
  | succ n ih =>
    intro i lOffset σ h
    simp only [fig02CompLoop]
    refine ih _ _ _ ?_
    split
    · exact bindAudioService_inv _ _ _ _ _ _ _ h
    · split
      · exact bindDataStreamService_inv _ _ _ _ _ _ _ h
      · split
        · exact bindPacketService_inv _ _ _ _ _ _ _ h
        · exact h

/-- One FIG0/2 record (decay, sighting, component binds) preserves the
invariant. -/
theorem h02_inv (d : List Nat) (offset cn pd now : Nat) (σ : FibState)
    (h : componentsInv σ) :
    componentsInv (HandleFIG0Extension2 d offset cn pd now σ).2 := by
  simp only [HandleFIG0Extension2]
  split
  · exact fig02CompLoop_inv _ _ _ _ _ _ (sight_inv _ _ (maybeDecay_inv _ _ h))
  · exact fig02CompLoop_inv _ _ _ _ _ _ (sight_inv _ _ (maybeDecay_inv _ _ h))

/-- The FIG0/2 loop preserves the invariant. -/
theorem fig02Loop_inv (d : List Nat) (now cn pd Length : Nat) :
    ∀ fuel used σ, componentsInv σ →
      componentsInv (fig02Loop d now cn pd Length fuel used σ) := by
  intro fuel
  induction fuel with
  | zero => intro used σ h; exact h
  | succ n ih =>
    intro used σ h
    simp only [fig02Loop]
    split
    · exact ih _ _ (h02_inv d used cn pd now σ h)
    · exact h

/-- Every FIG0 extension handler preserves the invariant. -/
theorem fig0_inv (d : List Nat) (now : Nat) (σ : FibState) (h : componentsInv σ) :
    componentsInv (process_FIG0 d now σ) := by
  simp only [process_FIG0]
  split
  · refine inv_of_eq _ σ (compKeys_ext _ _ (fig00_untouched d now σ).1)
      (svcIds_ext _ _ (fig00_untouched d now σ).2) h
  · split
    · refine inv_of_eq _ σ (compKeys_ext _ _ (fig01Loop_untouched _ _ _ _ _ _).1)
        (svcIds_ext _ _ (fig01Loop_untouched _ _ _ _ _ _).2) h
    · split
      · exact fig02Loop_inv _ _ _ _ _ _ _ _ h
      · split
        · exact inv_of_eq _ σ (fig03Loop_keys _ _ _ _ _).1 (fig03Loop_keys _ _ _ _ _).2 h
        · split
          · refine inv_of_eq _ σ (compKeys_ext _ _ (fig05Loop_untouched _ _ _ _ _).1)
              (svcIds_ext _ _ (fig05Loop_untouched _ _ _ _ _).2) h
          · split
            · exact inv_of_eq _ σ (compKeys_ext _ _ (fig09_untouched d σ).1)
                (svcIds_ext _ _ (fig09_untouched d σ).2) h
            · split
              · exact inv_of_eq _ σ (compKeys_ext _ _ (fig10_untouched d σ).1)
                  (svcIds_ext _ _ (fig10_untouched d σ).2) h
              · split
                · refine inv_of_eq _ σ (compKeys_ext _ _ (fig14Loop_untouched _ _ _ _ _).1)
                    (svcIds_ext _ _ (fig14Loop_untouched _ _ _ _ _).2) h
                · split
                  · exact inv_of_eq _ σ (fig17Loop_keys _ _ _ _ _).1
                      (fig17Loop_keys _ _ _ _ _).2 h
                  · exact h

/-- The dispatcher loop preserves the invariant, also on the error path. -/
theorem processFIBLoop_inv (p : List Nat) (now : Nat) :
    ∀ fuel k σ, componentsInv σ → componentsInv (processFIBLoop p now fuel k σ).1 := by
  intro fuel
  induction fuel with
  | zero => intro k σ h; exact h
  | succ n ih =>
    intro k σ h
    simp only [processFIBLoop]
    split
    · split
      · exact ih _ _ (fig0_inv _ _ _ h)
      · split
        · exact ih _ _ (inv_of_eq _ σ (fig1_keys _ _).1 (fig1_keys _ _).2 h)
        · split
          · split
            · exact inv_of_eq _ σ (fig2_keys _ _).1 (fig2_keys _ _).2 h
            · exact ih _ _ (inv_of_eq _ σ (fig2_keys _ _).1 (fig2_keys _ _).2 h)
          · split
            · exact h
            · split
              · exact h
              · exact ih _ _ h
    · exact h

/-- clearEnsemble trivially establishes the invariant. -/
theorem clearEnsemble_inv (σ : FibState) (now : Nat) :
    componentsInv (clearEnsemble σ now) := by
  constructor
  · intro k hk
    simp [compKeys, clearEnsemble] at hk
  · show (([] : List ServiceComponent).map _).Nodup
    simp


/-- Claim C7: starting from a state satisfying the invariant, every
operation - processing any FIB, clearEnsemble and dropService - preserves
it (queries do not mutate); a FIG0/2 component announcement for an unknown
serviceId leaves the state unchanged (silently discarded, for all three
transport modes); and a duplicate announcement for an existing
(serviceId, componentNumber) pair creates no new row. -/
theorem components_invariants (σ : FibState) (h : componentsInv σ) :
    (∀ p now, componentsInv (processFIB σ p now).1) ∧
    (∀ now, componentsInv (clearEnsemble σ now)) ∧
    (∀ sid, componentsInv (dropService σ sid)) ∧
    (∀ TMid SId compnr x y z, findServiceId σ SId = none →
        bindAudioService σ TMid SId compnr x y z = σ ∧
        bindDataStreamService σ TMid SId compnr x y z = σ ∧
        bindPacketService σ TMid SId compnr x y z = σ) ∧
    (∀ TMid SId compnr x y z s, findServiceId σ SId = some s →
        (σ.components.any fun sc => sc.SId == s.serviceId && sc.componentNr == compnr) = true →
        (bindAudioService σ TMid SId compnr x y z).components = σ.components ∧
        (bindDataStreamService σ TMid SId compnr x y z).components = σ.components ∧
        (bindPacketService σ TMid SId compnr x y z).components = σ.components) := by
  refine ⟨fun p now => processFIBLoop_inv p now 30 0 σ h,
          fun now => clearEnsemble_inv σ now,
          fun sid => dropService_inv σ sid h, ?_, ?_⟩
  · intro TMid SId compnr x y z hf
    refine ⟨?_, ?_, ?_⟩
    · unfold bindAudioService
      rw [hf]
    · unfold bindDataStreamService
      rw [hf]
    · unfold bindPacketService
      rw [hf]
  · intro TMid SId compnr x y z s hf hany
    refine ⟨?_, ?_, ?_⟩
    · unfold bindAudioService
      rw [hf]
      change (if (σ.components.any fun sc =>
          sc.SId == s.serviceId && sc.componentNr == compnr) = true then σ
        else _).components = σ.components
      rw [if_pos hany]
    · unfold bindDataStreamService
      rw [hf]
      change (if (σ.components.any fun sc =>
          sc.SId == s.serviceId && sc.componentNr == compnr) = true then σ
        else _).components = σ.components
      rw [if_pos hany]
    · unfold bindPacketService
      rw [hf]
      change (if (σ.components.any fun sc =>
          sc.SId == s.serviceId && sc.componentNr == compnr) = true then σ
        else _).components = σ.components
      rw [if_pos hany]

/-- Witness for C7 at the concrete state `c6State`. -/
theorem components_invariants_witness :
    componentsInv (dropService c6State 5) ∧
    bindAudioService c6State 3 99 0 1 0 0 = c6State :=
  ⟨(components_invariants c6State (by unfold componentsInv; decide)).2.2.1 5,
   ((components_invariants c6State (by unfold componentsInv; decide)).2.2.2.1
      3 99 0 1 0 0 (by decide)).1⟩

end FibProc
